import Mathlib

/-!
Verification of the analytics engine of the argo-energy-solutions weekly
report pipeline (backend/python_scripts): statistics kernel, calendar
kernel, baseline profilers, the four detectors (sensor health, after-hours
waste, anomaly detection, spike detection), the quick-wins synthesizer and
the configuration merge.

Modelling conventions, used throughout:
* Python numbers are modelled by `ℚ` (all arithmetic performed by the
  analytics is field arithmetic, exact over the rationals).  `np.std` is the
  only square root in the code; every consumer of a standard deviation
  either tests it against `0` (`z_score`) or squares it again
  (`rolling_variance`), so profiles and statistics records carry the
  variance `var = std²` instead of `std`, which is faithful for every
  downstream use.
* Timestamps are modelled as Unix epoch seconds (`ℤ`), one of the input
  forms accepted by `parse_timestamp` (which normalizes them to UTC
  datetimes).  `weekday`/`hour` of the UTC datetime of epoch second `t`
  are computed by floor division, `1970-01-01` being a Thursday
  (Python weekday `3`).
* A reading's power field may hold a number, `None`, or a float `NaN`;
  these are the three constructors of `PyVal`.  A dict key may also be
  absent, hence `Option PyVal` fields in `Reading`.
-/

/-- Value of a Python expression that may be a number, `None`, or `NaN`. -/
inductive PyVal where
  | num (q : ℚ)
  | nan
  | null
deriving DecidableEq, Repr

namespace PyVal

/-- Python truthiness of a `PyVal`: `0` and `None` are falsy, `NaN` and any
nonzero number are truthy. -/
def truthy : PyVal → Bool
  | num q => q != 0
  | nan => true
  | null => false

/-- Test for a numeric (non-`None`, non-`NaN`) value, the filter
`p is not None and not (isinstance(p, float) and p != p)` applied by the
baseline builders and the flatline power extraction. -/
def isNum : PyVal → Bool
  | num _ => true
  | _ => false

/-- Python comparison `p > t` for a `PyVal` against a number: `NaN > t` is
`False`.  Comparing `None` raises `TypeError` in Python; theorems that rely
on a comparison site always assume the value is not `null`, so the `false`
returned here is never load-bearing. -/
def gtQ : PyVal → ℚ → Bool
  | num q, t => q > t
  | nan, _ => false
  | null, _ => false

end PyVal

/-- Python `a or b` on power expressions: returns `a` when truthy, else `b`. -/
def pyOr (a b : PyVal) : PyVal := if a.truthy then a else b

/-- Rounding of a rational to the nearest integer, halves to even: the
semantics of Python 3 `round`. -/
def roundHalfEven (x : ℚ) : ℤ :=
  let f := ⌊x⌋
  let r := x - (f : ℚ)
  if r < 1/2 then f
  else if 1/2 < r then f + 1
  else if f % 2 = 0 then f else f + 1

/-- Python `round(x, 2)`. -/
def round2 (x : ℚ) : ℚ := (roundHalfEven (x * 100) : ℚ) / 100

/-- Python `round(x, 1)`. -/
def round1 (x : ℚ) : ℚ := (roundHalfEven (x * 10) : ℚ) / 10

/-! ### Statistics kernel (`lib/stats_utils.py`) -/

/-- Result record of `calculate_stats`.  The source's `std` field is
`Real.sqrt var`; `var` is carried instead (see the header comment). -/
structure StatsR where
  count : ℕ
  sum : ℚ
  mean : ℚ
  min : ℚ
  max : ℚ
  median : ℚ
  var : ℚ
deriving DecidableEq, Repr

/-- Minimum of a list of rationals (`np.min`); `0` on `[]`, a case the
source never reaches because `calculate_stats` returns early on `[]`. -/
def listMin : List ℚ → ℚ
  | [] => 0
  | x :: xs => xs.foldl min x

/-- Maximum of a list of rationals (`np.max`); `0` on `[]`. -/
def listMax : List ℚ → ℚ
  | [] => 0
  | x :: xs => xs.foldl max x

/-- Ascending sort used by the percentile computation (`np.percentile`
sorts its input). -/
def sortQ (values : List ℚ) : List ℚ :=
  List.insertionSort (fun a b : ℚ => a ≤ b) values

/-- Embedding of `percentile(values, p)`: `0` on empty input, otherwise
`np.percentile` with the default linear interpolation
(`rank = p/100 * (n-1)`, interpolate between the adjacent order
statistics).  Faithful for `p ∈ [0, 100]`; `np.percentile` raises outside
that range, and every call site passes `5`, `25`, `50`, `75` or `95`. -/
def percentile (values : List ℚ) (p : ℚ) : ℚ :=
  if values = [] then 0
  else
    let s := sortQ values
    let n : ℕ := s.length
    let rank : ℚ := p * ((n : ℚ) - 1) / 100
    let i : ℕ := (⌊rank⌋).toNat
    let frac : ℚ := rank - (i : ℚ)
    if i + 1 < n then s.getD i 0 + frac * (s.getD (i + 1) 0 - s.getD i 0)
    else s.getD i 0

/-- Embedding of `calculate_stats` (all-zero record on empty input). -/
def calculate_stats (values : List ℚ) : StatsR :=
  if values = [] then ⟨0, 0, 0, 0, 0, 0, 0⟩
  else
    let n : ℚ := values.length
    let m : ℚ := values.sum / n
    { count := values.length
      sum := values.sum
      mean := m
      min := listMin values
      max := listMax values
      median := percentile values 50
      var := (values.map (fun v => (v - m) ^ 2)).sum / n }

/-- Result record of `calculate_iqr`. -/
structure IqrR where
  q1 : ℚ
  q3 : ℚ
  iqr : ℚ
deriving DecidableEq, Repr

/-- Embedding of `calculate_iqr`. -/
def calculate_iqr (values : List ℚ) : IqrR :=
  if values = [] then ⟨0, 0, 0⟩
  else
    let q1 := percentile values 25
    let q3 := percentile values 75
    ⟨q1, q3, q3 - q1⟩

/-- Embedding of `z_score`: `0` when the standard deviation is `0`. -/
def z_score (value mean std : ℚ) : ℚ :=
  if std = 0 then 0 else (value - mean) / std

/-- Embedding of `non_zero_percentile`: drop values `≤ 0`, then
`percentile`. -/
def non_zero_percentile (values : List ℚ) (p : ℚ) : ℚ :=
  percentile (values.filter (fun v => decide (0 < v))) p

/-- Embedding of `calculate_completeness`. -/
def calculate_completeness (actual expected : ℕ) : ℚ :=
  if expected = 0 then 0 else ((actual : ℚ) / (expected : ℚ)) * 100

/-- One entry of `rolling_variance`.  The source also stores
`std = sqrt variance`, consumed nowhere downstream (the flatline check uses
`variance` and `mean` only); `variance` itself is `std ** 2`, exactly the
population variance of the window. -/
structure RollStat where
  index : ℕ
  variance : ℚ
  mean : ℚ
deriving DecidableEq, Repr

/-- Embedding of `rolling_variance`: one entry per trailing window of
`window_size` samples, faithful for `window_size ≥ 1` (a window size of `0`
can produce in Python one extra leading entry over an empty slice, which
can never satisfy the flatline condition `mean > 0.1`). -/
def rolling_variance (values : List ℚ) (window_size : ℕ) : List RollStat :=
  ((List.range values.length).drop (window_size - 1)).map fun i =>
    let window := (values.take (i + 1)).drop (i + 1 - window_size)
    let st := calculate_stats window
    { index := i, variance := st.var, mean := st.mean }

/-- One gap found by `find_gaps`. -/
structure Gap where
  start : ℤ
  stop : ℤ
  expectedIntervals : ℤ
  actualInterval : ℤ
  missingIntervals : ℤ
deriving DecidableEq, Repr

/-- Embedding of `find_gaps` over epoch-second timestamps: a gap wherever a
consecutive pair is more than `1.1×` the expected interval apart.  The
literal `1.1` is the rational `11/10` here; the Python float `1.1` differs
from it by `< 2⁻⁵⁰` relative, indistinguishable at integer second
resolutions. -/
def find_gaps (timestamps : List ℤ) (expected_interval_seconds : ℤ) : List Gap :=
  (timestamps.zip timestamps.tail).filterMap fun pr =>
    let actual : ℤ := pr.2 - pr.1
    if (actual : ℚ) > (expected_interval_seconds : ℚ) * (11 / 10) then
      some { start := pr.1, stop := pr.2
             expectedIntervals := roundHalfEven ((actual : ℚ) / (expected_interval_seconds : ℚ))
             actualInterval := actual
             missingIntervals := roundHalfEven ((actual : ℚ) / (expected_interval_seconds : ℚ)) - 1 }
    else none

/-! ### Calendar kernel (`lib/date_utils.py`) -/

/-- Python `weekday()` (Monday = 0) of the UTC datetime of epoch second
`t`; `1970-01-01` was a Thursday. -/
def pyWeekday (t : ℤ) : ℤ := (Int.fdiv t 86400 + 3) % 7

/-- Hour of day (0-23) of the UTC datetime of epoch second `t`. -/
def pyHour (t : ℤ) : ℤ := (t % 86400) / 3600

/-- Embedding of `get_hour_of_week`: `weekday*24 + hour`, Monday 00:00 = 0. -/
def get_hour_of_week (t : ℤ) : ℤ := pyWeekday t * 24 + pyHour t

/-- Embedding of `get_interval_hours`: resolution in seconds over 3600. -/
def get_interval_hours (resolution : ℤ) : ℚ := (resolution : ℚ) / 3600

/-! ### Configuration model (`config/report_config.py`)

The detectors receive the merged configuration dictionary; its recognized
fields are modelled as a structure (the claim about `merge_config` itself
is settled on an explicit heap model of Python dictionaries further below,
since it is a statement about mutation and sharing). -/

/-- One day's business-hours window (`{'start': h, 'end': h}`). -/
structure BizWindow where
  startH : ℤ
  endH : ℤ
deriving DecidableEq, Repr

/-- Section `sensorHealth` of the configuration. -/
structure SensorHealthCfg where
  gapMultiplier : ℚ
  staleHours : ℚ
  missingThresholdPct : ℚ
  flatlineHours : ℚ
  flatlineVarianceThreshold : ℚ
deriving DecidableEq, Repr

/-- Section `afterHours` of the configuration. -/
structure AfterHoursCfg where
  baselinePercentile : ℚ
  minPowerThreshold : ℚ
  minExcessKwh : ℚ
deriving DecidableEq, Repr

/-- Section `anomaly` of the configuration. -/
structure AnomalyCfg where
  iqrMultiplier : ℚ
  zScoreThreshold : ℚ
  minConsecutiveIntervals : ℕ
  minExcessKwh : ℚ
deriving DecidableEq, Repr

/-- Section `spike` of the configuration. -/
structure SpikeCfg where
  baselinePercentile : ℚ
  multiplier : ℚ
  submeterMinKw : ℚ
  siteMinKw : ℚ
  minDuration : ℕ
deriving DecidableEq, Repr

/-- Section `quickWins` of the configuration. -/
structure QuickWinsCfg where
  maxCount : ℕ
  minWeeklyImpact : ℚ
deriving DecidableEq, Repr

/-- Section `tariff` of the configuration. -/
structure TariffCfg where
  defaultRate : ℚ
  demandCharge : Option ℚ
deriving DecidableEq, Repr

/-- Merged configuration as consumed by the detectors.  `businessHours`
maps Python weekday (Monday = 0) to the day's window, `none` meaning the
whole day is after-hours. -/
structure Config where
  businessHours : Fin 7 → Option BizWindow
  sensorHealth : SensorHealthCfg
  afterHours : AfterHoursCfg
  anomaly : AnomalyCfg
  spike : SpikeCfg
  quickWins : QuickWinsCfg
  tariff : TariffCfg

/-- Values of `DEFAULT_CONFIG`, as a `Config`. -/
def defaultConfig : Config where
  businessHours := fun d => if (d : ℕ) ≤ 4 then some ⟨7, 18⟩ else none
  sensorHealth := ⟨2, 2, 10, 6, 1/100⟩
  afterHours := ⟨5, 1/10, 10⟩
  anomaly := ⟨3, 3, 3, 5⟩
  spike := ⟨95, 3/2, 5, 20, 1⟩
  quickWins := ⟨10, 10⟩
  tariff := ⟨12/100, none⟩

/-- Embedding of `is_business_hours`: look up the day's window; `None`
means after-hours, otherwise `start ≤ hour < end`. -/
def is_business_hours (t : ℤ) (config : Config) : Bool :=
  match config.businessHours ⟨(pyWeekday t).toNat % 7, Nat.mod_lt _ (by decide)⟩ with
  | none => false
  | some w => decide (w.startH ≤ pyHour t) && decide (pyHour t < w.endH)

/-! ### Readings and power extraction -/

/-- One telemetry reading as consumed by the detectors: timestamp plus the
two power fields the code reads.  `Option.none` models an absent dict key;
`some PyVal.null` a key present with value `None`. -/
structure Reading where
  ts : ℤ
  P : Option PyVal
  power_kw : Option PyVal
deriving DecidableEq, Repr

/-- Power extraction expression `r.get('P') or r.get('power_kw', 0)`,
shared verbatim by all four detectors and both baseline builders. -/
def powerExpr (r : Reading) : PyVal :=
  pyOr (r.P.getD PyVal.null) (r.power_kw.getD (PyVal.num 0))

/-- Numeric-power test on a reading (its power expression is a number). -/
def numericPower (r : Reading) : Bool := (powerExpr r).isNum

/-- Numeric power values of a list of readings, in order: extract the
power expression of each reading and keep the numbers (this is the
`Filter None and NaN` list comprehension of the baseline builders). -/
def numPowers (readings : List Reading) : List ℚ :=
  readings.filterMap fun r =>
    match powerExpr r with
    | PyVal.num q => some q
    | _ => none

/-- Bucket of `group_by(readings, hour-of-week)` at key `how`: the
readings whose timestamp falls at that hour of week, in input order
(`group_by` preserves encounter order inside each bucket; the builders
then look buckets up by key, so the grouping is modelled by its lookup
function). -/
def hourBucket (readings : List Reading) (how : ℤ) : List Reading :=
  readings.filter fun r => decide (get_hour_of_week r.ts = how)

/-! ### Baseline profiler of the anomaly detector (`analyze/anomaly_detection.py`) -/

/-- Per-hour-of-week profile entry built by `build_baseline_profile`:
`calculate_stats` plus `calculate_iqr` plus the derived upper threshold. -/
structure AnomProfile where
  count : ℕ
  sum : ℚ
  mean : ℚ
  min : ℚ
  max : ℚ
  median : ℚ
  var : ℚ
  q1 : ℚ
  q3 : ℚ
  iqr : ℚ
  upperThreshold : ℚ
deriving DecidableEq, Repr

/-- Profile entry from a non-empty list of numeric bucket powers. -/
def mkAnomProfile (powers : List ℚ) (iqrMultiplier : ℚ) : AnomProfile :=
  let st := calculate_stats powers
  let iq := calculate_iqr powers
  { count := st.count, sum := st.sum, mean := st.mean, min := st.min
    max := st.max, median := st.median, var := st.var
    q1 := iq.q1, q3 := iq.q3, iqr := iq.iqr
    upperThreshold := iq.q3 + iqrMultiplier * iq.iqr }

/-- Embedding of `build_baseline_profile`, as the lookup function of the
profile dict: group baseline readings by hour of week, drop non-numeric
powers, and emit an entry for each bucket with at least one numeric
power. -/
def build_baseline_profile (baseline_readings : List Reading) (config : Config)
    (how : ℤ) : Option AnomProfile :=
  let powers := numPowers (hourBucket baseline_readings how)
  if powers = [] then none
  else some (mkAnomProfile powers config.anomaly.iqrMultiplier)

/-! ### Baseline profiler of the spike detector (`analytics/spike_detection.py`) -/

/-- Per-hour-of-week entry built by `build_spike_baseline`. -/
structure SpikeBaseline where
  p95 : ℚ
  p50 : ℚ
  count : ℕ
deriving DecidableEq, Repr

/-- Embedding of `build_spike_baseline`, as the lookup function of the
baseline dict. -/
def build_spike_baseline (baseline_readings : List Reading) (how : ℤ) :
    Option SpikeBaseline :=
  let powers := numPowers (hourBucket baseline_readings how)
  if powers = [] then none
  else some { p95 := percentile powers 95, p50 := percentile powers 50
              count := powers.length }

/-! ### Anomaly detector (`analyze/anomaly_detection.py`) -/

/-- One anomalous reading as recorded by `detect_anomalies`.  The source
also stores a `zScore` field, `z_score(power, mean, std)` with
`std = sqrt var`; it is consumed nowhere downstream (the grouping reads
`ts`, `power`, `excessKw`, `excessKwh` and `isBusinessHours` only, and the
per-reading records are deleted from the emitted events), so this
irrational field is omitted from the rational embedding. -/
structure AnomRead where
  ts : ℤ
  power : ℚ
  baselineMedian : ℚ
  threshold : ℚ
  excessKw : ℚ
  excessKwh : ℚ
  isBusinessHours : Bool
deriving DecidableEq, Repr

/-- Flagging stage of `detect_anomalies`: for each report reading whose
hour of week has a baseline entry, record it when its power exceeds the
hour's upper threshold.  A `NaN` power compares `False`; a `None` power
would raise in Python (theorems assume it away). -/
def anomalousReadings (readings : List Reading) (baseline_readings : List Reading)
    (config : Config) (interval_seconds : ℤ) : List AnomRead :=
  readings.filterMap fun r =>
    match build_baseline_profile baseline_readings config (get_hour_of_week r.ts) with
    | none => none
    | some b =>
      match powerExpr r with
      | PyVal.num power =>
        if power > b.upperThreshold then
          some { ts := r.ts, power := power, baselineMedian := b.median
                 threshold := b.upperThreshold
                 excessKw := power - b.median
                 excessKwh := (power - b.median) * get_interval_hours interval_seconds
                 isBusinessHours := is_business_hours r.ts config }
        else none
      | _ => none

/-- Open event accumulator of `group_consecutive_anomalies`
(`current_event`): it literally carries the folded readings.  The
`avgExcessKw` key the source sets on the first accumulator is dead (it is
overwritten whenever an event is emitted) and is not carried. -/
structure OpenAnom where
  start : ℤ
  stop : ℤ
  readings : List AnomRead
  peakPower : ℚ
  totalExcessKwh : ℚ
deriving DecidableEq, Repr

/-- Context tag of an emitted anomaly event. -/
inductive AnomCtx where
  | businessHours
  | afterHours
deriving DecidableEq, Repr

/-- Emitted anomaly event.  `duration` is the reading count; the source
renders it as the string `"N intervals"` and deletes the `readings` key. -/
structure AnomEvent where
  start : ℤ
  stop : ℤ
  peakPower : ℚ
  totalExcessKwh : ℚ
  avgExcessKw : ℚ
  duration : ℕ
  context : AnomCtx
deriving DecidableEq, Repr

/-- Fresh accumulator from one anomalous reading. -/
def anomInit (r : AnomRead) : OpenAnom :=
  { start := r.ts, stop := r.ts, readings := [r]
    peakPower := r.power, totalExcessKwh := r.excessKwh }

/-- Fold one further reading into the open event. -/
def anomFold (o : OpenAnom) (r : AnomRead) : OpenAnom :=
  { start := o.start, stop := r.ts, readings := o.readings ++ [r]
    peakPower := max o.peakPower r.power
    totalExcessKwh := o.totalExcessKwh + r.excessKwh }

/-- Close the open event: emitted only when it holds at least
`min_consecutive` readings; `avgExcessKw` divides by `count × 0.25`
(the source's hard-coded 15-minute assumption). -/
def anomClose (min_consecutive : ℕ) (o : OpenAnom) : Option AnomEvent :=
  if o.readings.length ≥ min_consecutive then
    some { start := o.start, stop := o.stop, peakPower := o.peakPower
           totalExcessKwh := o.totalExcessKwh
           avgExcessKw := o.totalExcessKwh / ((o.readings.length : ℚ) * (1/4))
           duration := o.readings.length
           context := if (o.readings.headD ⟨0, 0, 0, 0, 0, 0, false⟩).isBusinessHours
                      then AnomCtx.businessHours else AnomCtx.afterHours }
  else none

/-- Loop of `group_consecutive_anomalies` from an open accumulator: fold a
reading within a gap of `< 7200` seconds of the accumulator's end,
otherwise close (emitting if large enough) and start afresh. -/
def groupAnomAux (min_consecutive : ℕ) (o : OpenAnom) :
    List AnomRead → List AnomEvent
  | [] => (anomClose min_consecutive o).toList
  | r :: rest =>
    if r.ts - o.stop < 7200 then
      groupAnomAux min_consecutive (anomFold o r) rest
    else
      (anomClose min_consecutive o).toList ++
        groupAnomAux min_consecutive (anomInit r) rest

/-- Embedding of `group_consecutive_anomalies`. -/
def group_consecutive_anomalies (readings : List AnomRead)
    (min_consecutive : ℕ) : List AnomEvent :=
  match readings with
  | [] => []
  | r :: rest => groupAnomAux min_consecutive (anomInit r) rest

/-- Channel input to a detector: id, display name, readings, and the
optional `expectedIntervals` used by sensor health. -/
structure ChannelData where
  channelId : String
  channelName : String
  readings : List Reading
  expectedIntervals : Option ℕ
deriving DecidableEq, Repr

/-- Baseline input: id plus the baseline-period readings. -/
structure BaselineData where
  channelId : String
  readings : List Reading
deriving DecidableEq, Repr

/-- Per-channel result of `detect_anomalies`. -/
structure AnomResult where
  channelId : String
  channelName : String
  anomalyCount : ℕ
  events : List AnomEvent
deriving DecidableEq, Repr

/-- Embedding of `detect_anomalies`: flag readings against the hour-of-week
baseline profile, group them into events, keep events with
`totalExcessKwh ≥ minExcessKwh`. -/
def detect_anomalies (channel_data : ChannelData) (baseline_data : BaselineData)
    (config : Config) (interval_seconds : ℤ) : AnomResult :=
  let anoms := anomalousReadings channel_data.readings baseline_data.readings
      config interval_seconds
  let events := group_consecutive_anomalies anoms config.anomaly.minConsecutiveIntervals
  let significant := events.filter fun e =>
    decide (e.totalExcessKwh ≥ config.anomaly.minExcessKwh)
  { channelId := channel_data.channelId, channelName := channel_data.channelName
    anomalyCount := significant.length, events := significant }

/-! ### Spike detector (`analytics/spike_detection.py`) -/

/-- One flagged spike reading as recorded by `detect_spikes`. -/
structure SpikeRead where
  ts : ℤ
  power : ℚ
  baselineP95 : ℚ
  threshold : ℚ
  excessKw : ℚ
  excessKwh : ℚ
deriving DecidableEq, Repr

/-- Emitted spike event; `duration` is the interval count (rendered as the
string `"N intervals"` by the source). -/
structure SpikeEvent where
  start : ℤ
  stop : ℤ
  peakPower : ℚ
  totalExcessKwh : ℚ
  intervals : ℕ
  duration : ℕ
deriving DecidableEq, Repr

/-- Open event accumulator of `group_consecutive_spikes`. -/
structure OpenSpike where
  start : ℤ
  stop : ℤ
  peakPower : ℚ
  totalExcessKwh : ℚ
  intervals : ℕ
deriving DecidableEq, Repr

/-- Fresh accumulator from one spike reading. -/
def spikeInit (s : SpikeRead) : OpenSpike :=
  { start := s.ts, stop := s.ts, peakPower := s.power
    totalExcessKwh := s.excessKwh, intervals := 1 }

/-- Fold one further spike into the open event. -/
def spikeFold (o : OpenSpike) (s : SpikeRead) : OpenSpike :=
  { start := o.start, stop := s.ts, peakPower := max o.peakPower s.power
    totalExcessKwh := o.totalExcessKwh + s.excessKwh
    intervals := o.intervals + 1 }

/-- Close the open event, adding the `duration` rendering of `intervals`. -/
def spikeClose (o : OpenSpike) : SpikeEvent :=
  { start := o.start, stop := o.stop, peakPower := o.peakPower
    totalExcessKwh := o.totalExcessKwh, intervals := o.intervals
    duration := o.intervals }

/-- Loop of `group_consecutive_spikes`: fold a spike within a gap of
`≤ 2 × interval_seconds` of the accumulator's end, otherwise emit and
start afresh. -/
def groupSpikeAux (interval_seconds : ℤ) (o : OpenSpike) :
    List SpikeRead → List SpikeEvent
  | [] => [spikeClose o]
  | s :: rest =>
    if s.ts - o.stop ≤ interval_seconds * 2 then
      groupSpikeAux interval_seconds (spikeFold o s) rest
    else
      spikeClose o :: groupSpikeAux interval_seconds (spikeInit s) rest

/-- Embedding of `group_consecutive_spikes`. -/
def group_consecutive_spikes (spikes : List SpikeRead)
    (interval_seconds : ℤ) : List SpikeEvent :=
  match spikes with
  | [] => []
  | s :: rest => groupSpikeAux interval_seconds (spikeInit s) rest

/-- Flagging stage of `detect_spikes`: a reading whose hour has a baseline
entry is a spike when its power exceeds both
`max(p95 × multiplier, min_absolute_kw)` and `min_absolute_kw`. -/
def spikeReadings (readings : List Reading) (baseline_readings : List Reading)
    (config : Config) (interval_seconds : ℤ) (min_absolute_kw : ℚ) : List SpikeRead :=
  readings.filterMap fun r =>
    match build_spike_baseline baseline_readings (get_hour_of_week r.ts) with
    | none => none
    | some bs =>
      match powerExpr r with
      | PyVal.num power =>
        let threshold := max (bs.p95 * config.spike.multiplier) min_absolute_kw
        if power > threshold ∧ power > min_absolute_kw then
          some { ts := r.ts, power := power, baselineP95 := bs.p95
                 threshold := threshold, excessKw := power - bs.p95
                 excessKwh := (power - bs.p95) * get_interval_hours interval_seconds }
        else none
      | _ => none

/-- Per-channel result of `detect_spikes`. -/
structure SpikeResult where
  channelId : String
  channelName : String
  spikeCount : ℕ
  events : List SpikeEvent
deriving DecidableEq, Repr

/-- Embedding of `detect_spikes`: the absolute floor is `siteMinKw` for the
site-total channel, `submeterMinKw` otherwise; events shorter than
`minDuration` intervals are dropped. -/
def detect_spikes (channel_data : ChannelData) (baseline_data : BaselineData)
    (config : Config) (interval_seconds : ℤ) (is_site_total : Bool) : SpikeResult :=
  let min_absolute_kw :=
    if is_site_total then config.spike.siteMinKw else config.spike.submeterMinKw
  let spikes := spikeReadings channel_data.readings baseline_data.readings
      config interval_seconds min_absolute_kw
  let events := group_consecutive_spikes spikes interval_seconds
  let significant := events.filter fun e => decide (e.intervals ≥ config.spike.minDuration)
  { channelId := channel_data.channelId, channelName := channel_data.channelName
    spikeCount := significant.length, events := significant }

/-- Site-total test made by `analyze_spikes`:
`channel_data['channelId'] == site_channel_id` (false whenever
`site_channel_id` is `None`). -/
def isSiteTotal (channelId : String) (site_channel_id : Option String) : Bool :=
  match site_channel_id with
  | none => false
  | some s => channelId == s

/-- Spike-analysis result of `analyze_spikes`.  `topSpikes` entries are the
events flattened with their channel name (`{'channelName': ..., **event}`),
modelled as a pair. -/
structure TopSpike where
  channelName : String
  ev : SpikeEvent
deriving DecidableEq, Repr

/-- Peak-power sort key of `analyze_spikes`
(`max(e['peakPower'] for e in r['events']) if r['events'] else 0`). -/
def peakKey (r : SpikeResult) : ℚ :=
  match r.events with
  | [] => 0
  | e :: es => es.foldl (fun a x => max a x.peakPower) e.peakPower

/-- Site-level spike analysis record. -/
structure SpikeAnalysis where
  channelsWithSpikes : ℕ
  totalSpikeEvents : ℕ
  totalExcessKwh : ℚ
  results : List SpikeResult
  topSpikes : List TopSpike
deriving DecidableEq, Repr

/-- Baseline lookup of the three baseline-driven analyzers:
`next((b for b in baselines_data if b['channelId'] == ...), None)`. -/
def findBaseline (baselines_data : List BaselineData) (channelId : String) :
    Option BaselineData :=
  baselines_data.find? fun b => b.channelId == channelId

/-- Embedding of `get_top_spikes`: flatten all kept events with their
channel names, sort by peak power descending (Python's stable sort with
`reverse=True`), take the first `count`. -/
def get_top_spikes (results : List SpikeResult) (count : ℕ) : List TopSpike :=
  let all_spikes := results.flatMap fun r =>
    r.events.map fun e => TopSpike.mk r.channelName e
  (List.insertionSort
    (fun a b : TopSpike => b.ev.peakPower ≤ a.ev.peakPower) all_spikes).take count

/-- Embedding of `analyze_spikes`: per channel with a non-empty baseline,
run `detect_spikes` (site floor for the channel matching
`site_channel_id`), keep channels with spikes, sort by descending peak
power, and aggregate. -/
def analyze_spikes (channels_data : List ChannelData)
    (baselines_data : List BaselineData) (config : Config)
    (interval_seconds : ℤ) (site_channel_id : Option String) : SpikeAnalysis :=
  let results := channels_data.filterMap fun ch =>
    match findBaseline baselines_data ch.channelId with
    | none => none
    | some b =>
      if b.readings.isEmpty then none
      else
        let r := detect_spikes ch b config interval_seconds
            (isSiteTotal ch.channelId site_channel_id)
        if r.spikeCount > 0 then some r else none
  let sorted := List.insertionSort
    (fun a b : SpikeResult => peakKey b ≤ peakKey a) results
  { channelsWithSpikes := sorted.length
    totalSpikeEvents := (sorted.map (·.spikeCount)).sum
    totalExcessKwh := round2 ((sorted.map fun r =>
      (r.events.map (·.totalExcessKwh)).sum).sum)
    results := sorted
    topSpikes := get_top_spikes sorted 10 }

/-! ### After-hours waste calculator (`analyze/after_hours_waste.py`) -/

/-- Numeric projection of a power value.  The after-hours accumulation
loop multiplies and sums the raw power values: on a numeric power this is
exact; Python would propagate a `NaN` and raise on `None`, so every
theorem about this analyzer restricts the readings involved to numeric
powers. -/
def pvQ : PyVal → ℚ
  | PyVal.num q => q
  | _ => 0

/-- Baseline after-hours power sample: powers of baseline readings that
are outside business hours and above `minPowerThreshold` (a `NaN` power
fails that comparison; a `None` power would raise). -/
def baselineAfterHoursPowers (baseline_data : List Reading) (config : Config) :
    List ℚ :=
  baseline_data.filterMap fun r =>
    if is_business_hours r.ts config then none
    else
      match powerExpr r with
      | PyVal.num q =>
        if q > config.afterHours.minPowerThreshold then some q else none
      | _ => none

/-- Computed after-hours baseline power of a channel:
`non_zero_percentile` of the baseline after-hours sample at
`baselinePercentile`. -/
def afterHoursBaselineKw (baseline_data : List Reading) (config : Config) : ℚ :=
  non_zero_percentile (baselineAfterHoursPowers baseline_data config)
    config.afterHours.baselinePercentile

/-- One report-period after-hours reading (`{'ts': ..., 'power': ...}`). -/
structure AHReportReading where
  ts : ℤ
  power : PyVal
deriving DecidableEq, Repr

/-- Report-period readings outside business hours, with extracted power. -/
def reportAfterHoursReadings (channel_data : ChannelData) (config : Config) :
    List AHReportReading :=
  channel_data.readings.filterMap fun r =>
    if is_business_hours r.ts config then none
    else some { ts := r.ts, power := powerExpr r }

/-- Detail record for one excess interval. -/
structure AHExcessInterval where
  ts : ℤ
  power : ℚ
  baselinePower : ℚ
  excessKw : ℚ
  excessKwh : ℚ
deriving DecidableEq, Repr

/-- The `thisWeek` block of the after-hours result. -/
structure AHThisWeek where
  totalAfterHoursKwh : ℚ
  excessAfterHoursKwh : ℚ
  avgPowerKw : ℚ
  maxPowerKw : ℚ
  minPowerKw : ℚ
  intervals : ℕ
deriving DecidableEq, Repr

/-- The `impact` block of the after-hours result. -/
structure AHImpact where
  excessKwh : ℚ
  excessCost : ℚ
  percentOfTotal : ℚ
deriving DecidableEq, Repr

/-- Per-channel result of `calculate_after_hours_waste`.  `baselineKw` is
the `baseline.kw` field (its sibling `source` is a constant format
string, omitted). -/
structure AHResult where
  channelId : String
  channelName : String
  baselineKw : ℚ
  thisWeek : AHThisWeek
  impact : AHImpact
  excessIntervals : List AHExcessInterval
  isSignificant : Bool
deriving DecidableEq, Repr

/-- Embedding of `calculate_after_hours_waste`. -/
def calculate_after_hours_waste (channel_data : ChannelData)
    (baseline_data : List Reading) (config : Config)
    (interval_seconds : ℤ) : AHResult :=
  let interval_hours := get_interval_hours interval_seconds
  let baseline_kw := afterHoursBaselineKw baseline_data config
  let ahr := reportAfterHoursReadings channel_data config
  let total_after_hours_kwh := (ahr.map fun rr => pvQ rr.power * interval_hours).sum
  let excess_after_hours_kwh :=
    (ahr.map fun rr => max 0 (pvQ rr.power - baseline_kw) * interval_hours).sum
  let excess_intervals := (ahr.filterMap fun rr =>
    let excess := max 0 (pvQ rr.power - baseline_kw)
    if excess > config.afterHours.minPowerThreshold then
      some { ts := rr.ts, power := pvQ rr.power, baselinePower := baseline_kw
             excessKw := excess, excessKwh := excess * interval_hours }
    else none).take 10
  let st := calculate_stats (ahr.map fun rr => pvQ rr.power)
  { channelId := channel_data.channelId
    channelName := channel_data.channelName
    baselineKw := round2 baseline_kw
    thisWeek :=
      { totalAfterHoursKwh := round2 total_after_hours_kwh
        excessAfterHoursKwh := round2 excess_after_hours_kwh
        avgPowerKw := round2 st.mean
        maxPowerKw := round2 st.max
        minPowerKw := round2 st.min
        intervals := ahr.length }
    impact :=
      { excessKwh := round2 excess_after_hours_kwh
        excessCost := round2 (excess_after_hours_kwh * config.tariff.defaultRate)
        percentOfTotal :=
          if total_after_hours_kwh > 0 then
            round1 (excess_after_hours_kwh / total_after_hours_kwh * 100)
          else 0 }
    excessIntervals := excess_intervals
    isSignificant := decide (excess_after_hours_kwh ≥ config.afterHours.minExcessKwh) }

/-- Site summary block of the after-hours analysis. -/
structure AHSummary where
  totalMetersWithExcess : ℕ
  totalExcessKwh : ℚ
  totalExcessCost : ℚ
  estimatedAnnualCost : ℚ
deriving DecidableEq, Repr

/-- Site-level after-hours analysis record (the `charts` block, a
presentation-only reshaping of the same rows, is omitted). -/
structure AHAnalysis where
  topMeters : List AHResult
  allMeters : List AHResult
  summary : AHSummary
deriving DecidableEq, Repr

/-- Embedding of `analyze_after_hours_waste`: per channel with a non-empty
baseline, keep significant results, sort by excess kWh descending
(Python's stable sort with `reverse=True`), expose the top 10. -/
def analyze_after_hours_waste (channels_data : List ChannelData)
    (baselines_data : List BaselineData) (config : Config)
    (interval_seconds : ℤ) : AHAnalysis :=
  let results := channels_data.filterMap fun ch =>
    match findBaseline baselines_data ch.channelId with
    | none => none
    | some b =>
      if b.readings.isEmpty then none
      else
        let r := calculate_after_hours_waste ch b.readings config interval_seconds
        if r.isSignificant then some r else none
  let sorted := List.insertionSort
    (fun a b : AHResult => b.impact.excessKwh ≤ a.impact.excessKwh) results
  { topMeters := sorted.take 10
    allMeters := sorted
    summary :=
      { totalMetersWithExcess := sorted.length
        totalExcessKwh := round2 ((sorted.map fun r => r.impact.excessKwh).sum)
        totalExcessCost := round2 ((sorted.map fun r => r.impact.excessCost).sum)
        estimatedAnnualCost :=
          round2 (((sorted.map fun r => r.impact.excessCost).sum) * 52) } }

/-! ### Sensor health analyzer (`analyze/sensor_health.py`) -/

/-- Severity of a health issue. -/
inductive Severity where
  | high
  | medium
  | low
deriving DecidableEq, Repr

/-- Type-specific payload of a health issue (the human-readable
`description`/`duration` strings, pure renderings of these numbers, are
omitted). -/
inductive IssuePayload where
  | missingData (start stop : ℤ) (missingIntervals : ℤ)
  | lowCompleteness (completeness : ℚ) (missingCount : ℤ)
  | flatline (start stop : Option ℤ) (meanPower variance : ℚ)
  | staleData (lastReading : ℤ) (hoursSince : ℚ)
deriving DecidableEq, Repr

/-- One sensor-health issue. -/
structure Issue where
  severity : Severity
  channelId : String
  channelName : String
  payload : IssuePayload
deriving DecidableEq, Repr

/-- Test for a staleness issue. -/
def Issue.isStale (i : Issue) : Bool :=
  match i.payload with
  | IssuePayload.staleData _ _ => true
  | _ => false

/-- Missing-data issues of a channel: one per `find_gaps` gap with
`missingIntervals ≥ gapMultiplier`, severity `high` when more than 10
intervals are missing. -/
def gapIssues (channel_data : ChannelData) (config : Config)
    (interval_seconds : ℤ) : List Issue :=
  (find_gaps (channel_data.readings.map (·.ts)) interval_seconds).filterMap fun g =>
    if (g.missingIntervals : ℚ) ≥ config.sensorHealth.gapMultiplier then
      some { severity := if g.missingIntervals > (10 : ℤ) then Severity.high else Severity.medium
             channelId := channel_data.channelId
             channelName := channel_data.channelName
             payload := IssuePayload.missingData g.start g.stop g.missingIntervals }
    else none

/-- Low-completeness issue of a channel (at most one): expected count
defaults to the actual count when the caller supplies none. -/
def completenessIssue (channel_data : ChannelData) (config : Config) :
    Option Issue :=
  let expected := channel_data.expectedIntervals.getD channel_data.readings.length
  let actual := channel_data.readings.length
  let completeness := calculate_completeness actual expected
  if completeness < 100 - config.sensorHealth.missingThresholdPct then
    some { severity := if completeness < 50 then Severity.high else Severity.medium
           channelId := channel_data.channelId
           channelName := channel_data.channelName
           payload := IssuePayload.lowCompleteness completeness
             ((expected : ℤ) - (actual : ℤ)) }
  else none

/-- Flatline issue of a channel (at most one: the source breaks out of the
scan at the first window with `variance < flatlineVarianceThreshold` and
`mean > 0.1`).  The window size is
`int(flatlineHours * 3600 / interval_seconds)` (float truncation towards
zero; the configuration values are nonnegative). -/
def flatlineIssue (channel_data : ChannelData) (config : Config)
    (interval_seconds : ℤ) : Option Issue :=
  let power_readings := numPowers channel_data.readings
  if power_readings.length = 0 then none
  else
    let flatline_window : ℕ :=
      (⌊config.sensorHealth.flatlineHours * 3600 / (interval_seconds : ℚ)⌋).toNat
    if power_readings.length ≥ flatline_window then
      match (rolling_variance power_readings flatline_window).find? (fun st =>
          decide (st.variance < config.sensorHealth.flatlineVarianceThreshold) &&
          decide (st.mean > 1/10)) with
      | none => none
      | some st =>
        let start_idx := st.index + 1 - flatline_window
        some { severity := Severity.medium
               channelId := channel_data.channelId
               channelName := channel_data.channelName
               payload := IssuePayload.flatline
                 ((channel_data.readings.get? start_idx).map (·.ts))
                 ((channel_data.readings.get? st.index).map (·.ts))
                 st.mean st.variance }
    else none

/-- Staleness issue of a channel (at most one): present when the last
reading is older than `staleHours` relative to the wall clock `now`
(`datetime.now(...)` in the source — the one ambient input of the
analytics core, made explicit here). -/
def staleIssue (channel_data : ChannelData) (config : Config) (now : ℤ) :
    Option Issue :=
  match channel_data.readings.getLast? with
  | none => none
  | some last_reading =>
    let hours_since : ℚ := ((now : ℚ) - (last_reading.ts : ℚ)) / 3600
    if hours_since > config.sensorHealth.staleHours then
      some { severity := if hours_since > 24 then Severity.high else Severity.low
             channelId := channel_data.channelId
             channelName := channel_data.channelName
             payload := IssuePayload.staleData last_reading.ts hours_since }
    else none

/-- Embedding of `analyze_sensor_health`: the four checks appended in
source order.  `now` is the wall-clock instant the Python code reads
ambiently via `datetime.now`. -/
def analyze_sensor_health (channel_data : ChannelData) (config : Config)
    (interval_seconds : ℤ) (now : ℤ) : List Issue :=
  gapIssues channel_data config interval_seconds ++
    (completenessIssue channel_data config).toList ++
    (flatlineIssue channel_data config interval_seconds).toList ++
    (staleIssue channel_data config now).toList

/-! ### Quick-wins synthesizer (`analyze/quick_wins.py`)

The synthesizer consumes the detector analysis records plus the
configuration.  Free-text fields of a recommendation (`title`,
`description`, `recommendations`, the `additionalNote` of the spike rule,
the inner `description` of the `N/A` impact blocks) are presentation-only
renderings of the same numbers and are omitted; all fields the sorting and
bounding logic reads are carried. -/

/-- Priority of a quick win. -/
inductive Priority where
  | high
  | medium
  | low
deriving DecidableEq, Repr

/-- Numeric rank of a priority (`priority_order = {'high':0, 'medium':1,
'low':2}`; the `.get` default `3` is unreachable since every generated win
carries one of the three literals). -/
def priorityRank : Priority → ℕ
  | Priority.high => 0
  | Priority.medium => 1
  | Priority.low => 2

/-- Category tag of a quick win. -/
inductive QWType where
  | after_hours_waste
  | sensor_health
  | anomaly
  | spike
  | summary
deriving DecidableEq, Repr

/-- Confidence label of a quick win. -/
inductive Confidence where
  | high
  | medium
deriving DecidableEq, Repr

/-- Impact block; `weeklyKwh = Option.none` models the string sentinel
`'N/A'` (which the sort key treats as `0` via its `isinstance` test). -/
structure QWImpact where
  weeklyKwh : Option ℚ
  weeklyCost : ℚ
  annualCost : ℚ
deriving DecidableEq, Repr

/-- One generated recommendation. -/
structure QuickWin where
  qtype : QWType
  priority : Priority
  impact : QWImpact
  confidence : Confidence
  owner : String
  effort : String
deriving DecidableEq, Repr

/-- Site-level sensor-health record (`analyze_sensor_health_for_site`
output shape) as consumed by the synthesizer. -/
structure SHAnalysis where
  totalIssues : ℕ
  highSeverity : ℕ
  mediumSeverity : ℕ
  lowSeverity : ℕ
  issues : List Issue
deriving DecidableEq, Repr

/-- Site-level anomaly record (`analyze_anomalies` output shape) as
consumed by the synthesizer. -/
structure AnomAnalysis where
  channelsWithAnomalies : ℕ
  totalAnomalyEvents : ℕ
  totalExcessKwh : ℚ
  results : List AnomResult
deriving DecidableEq, Repr

/-- The `analytics` argument of `generate_quick_wins`: the four detector
analysis records, each possibly absent/falsy (`Option.none`). -/
structure QWAnalytics where
  afterHoursWaste : Option AHAnalysis
  sensorHealth : Option SHAnalysis
  anomalies : Option AnomAnalysis
  spikes : Option SpikeAnalysis

/-- Sort key ordering of `generate_quick_wins`: ascending
`(priority_rank, -impact_kwh)`, non-numeric impact counting as `0`. -/
def winLe (a b : QuickWin) : Prop :=
  priorityRank a.priority < priorityRank b.priority ∨
    (priorityRank a.priority = priorityRank b.priority ∧
      b.impact.weeklyKwh.getD 0 ≤ a.impact.weeklyKwh.getD 0)

instance : DecidableRel winLe := fun a b => by
  unfold winLe; infer_instance

instance : IsTotal QuickWin winLe where
  total a b := by
    unfold winLe
    rcases Nat.lt_trichotomy (priorityRank a.priority) (priorityRank b.priority) with h | h | h
    · exact Or.inl (Or.inl h)
    · rcases le_total (b.impact.weeklyKwh.getD 0) (a.impact.weeklyKwh.getD 0) with h2 | h2
      · exact Or.inl (Or.inr ⟨h, h2⟩)
      · exact Or.inr (Or.inr ⟨h.symm, h2⟩)
    · exact Or.inr (Or.inl h)

instance : IsTrans QuickWin winLe where
  trans a b c hab hbc := by
    unfold winLe at *
    rcases hab with h1 | ⟨e1, i1⟩
    · rcases hbc with h2 | ⟨e2, _⟩
      · exact Or.inl (h1.trans h2)
      · exact Or.inl (e2 ▸ h1)
    · rcases hbc with h2 | ⟨e2, i2⟩
      · exact Or.inl (e1 ▸ h2)
      · exact Or.inr ⟨e1.trans e2, i2.trans i1⟩

/-- Rule 1: up to three top after-hours meters above `minWeeklyImpact`. -/
def afterHoursWins (analytics : QWAnalytics) (config : Config) : List QuickWin :=
  match analytics.afterHoursWaste with
  | none => []
  | some ah =>
    (ah.topMeters.take 3).filterMap fun meter =>
      if meter.impact.excessKwh ≥ config.quickWins.minWeeklyImpact then
        some { qtype := QWType.after_hours_waste
               priority := if meter.impact.excessKwh > (100 : ℚ) then Priority.high
                           else Priority.medium
               impact := { weeklyKwh := some meter.impact.excessKwh
                           weeklyCost := meter.impact.excessCost
                           annualCost := meter.impact.excessCost * 52 }
               confidence := if meter.thisWeek.intervals > 100 then Confidence.high
                             else Confidence.medium
               owner := "Facilities Manager", effort := "Low to Medium" }
      else none

/-- Rule 2: one recommendation when high-severity sensor issues exist
(`list(set(...))` of the affected channel names: only its length is read
outside the description strings, so the set is modelled by `dedup`). -/
def sensorWins (analytics : QWAnalytics) : List QuickWin :=
  match analytics.sensorHealth with
  | none => []
  | some sh =>
    if sh.highSeverity > 0 then
      let high_issues := sh.issues.filter fun i => i.severity == Severity.high
      let affected_channels := (high_issues.map (·.channelName)).dedup
      if affected_channels.length > 0 then
        [{ qtype := QWType.sensor_health, priority := Priority.high
           impact := { weeklyKwh := none, weeklyCost := 0, annualCost := 0 }
           confidence := Confidence.high
           owner := "Energy Manager / Facilities", effort := "Medium" }]
      else []
    else []

/-- Rule 3: the channel with the most anomaly excess (`results[0]`, the
caller having sorted descending), priority by its first event's excess. -/
def anomalyWins (analytics : QWAnalytics) (config : Config) : List QuickWin :=
  match analytics.anomalies with
  | none => []
  | some an =>
    if an.totalAnomalyEvents > 0 then
      match an.results with
      | [] => []
      | top_anomaly :: _ =>
        match top_anomaly.events with
        | [] => []
        | top_event :: _ =>
          [{ qtype := QWType.anomaly
             priority := if top_event.totalExcessKwh > 50 then Priority.high
                         else Priority.medium
             impact := { weeklyKwh := some top_event.totalExcessKwh
                         weeklyCost := top_event.totalExcessKwh * config.tariff.defaultRate
                         annualCost :=
                           top_event.totalExcessKwh * config.tariff.defaultRate * 52 }
             confidence := Confidence.medium
             owner := "Operations / Energy Manager", effort := "Medium" }]
    else []

/-- Rule 4: the highest-peak spike, when any. -/
def spikeWins (analytics : QWAnalytics) (config : Config) : List QuickWin :=
  match analytics.spikes with
  | none => []
  | some sp =>
    match sp.topSpikes with
    | [] => []
    | top_spike :: _ =>
      [{ qtype := QWType.spike, priority := Priority.medium
         impact := { weeklyKwh := some top_spike.ev.totalExcessKwh
                     weeklyCost := top_spike.ev.totalExcessKwh * config.tariff.defaultRate
                     annualCost :=
                       top_spike.ev.totalExcessKwh * config.tariff.defaultRate * 52 }
         confidence := Confidence.medium
         owner := "Facilities Manager", effort := "Medium to High" }]

/-- Rule 5: flatlined sensors, when any. -/
def flatlineWins (analytics : QWAnalytics) : List QuickWin :=
  let issues : List Issue := match analytics.sensorHealth with
    | none => []
    | some sh => sh.issues
  let flatline_issues := issues.filter fun i =>
      match i.payload with
      | IssuePayload.flatline _ _ _ _ => true
      | _ => false
  if flatline_issues.length > 0 then
    [{ qtype := QWType.sensor_health, priority := Priority.low
       impact := { weeklyKwh := none, weeklyCost := 0, annualCost := 0 }
       confidence := Confidence.high
       owner := "Facilities / Maintenance", effort := "Low" }]
  else []

/-- Rule 6: site-wide after-hours summary, when aggregate excess is
positive. -/
def summaryWins (analytics : QWAnalytics) : List QuickWin :=
  match analytics.afterHoursWaste with
  | none => []
  | some ah =>
    if ah.summary.totalExcessKwh > 0 then
      [{ qtype := QWType.summary, priority := Priority.high
         impact := { weeklyKwh := some ah.summary.totalExcessKwh
                     weeklyCost := ah.summary.totalExcessCost
                     annualCost := ah.summary.estimatedAnnualCost }
         confidence := Confidence.high
         owner := "Energy Manager / Facilities Director", effort := "Medium" }]
    else []

/-- Embedding of `generate_quick_wins`: the six rules in source order,
then Python's stable sort by `(priority_rank, -impact_kwh)` (modelled by
the stable `insertionSort`), then truncation to `maxCount`. -/
def generate_quick_wins (analytics : QWAnalytics) (config : Config) :
    List QuickWin :=
  let wins := afterHoursWins analytics config ++ sensorWins analytics ++
    anomalyWins analytics config ++ spikeWins analytics config ++
    flatlineWins analytics ++ summaryWins analytics
  (List.insertionSort winLe wins).take config.quickWins.maxCount

/-! ### Configuration merge (`config/report_config.py`)

The claim about `merge_config` concerns mutation and sharing of Python
dictionaries, so this part is modelled on an explicit heap: a heap is a
list of dictionaries, an address is an index, allocation appends.
Scalar leaf values (strings, numbers, booleans, `None`, the
`intervalPreferences` list, and the per-day `{'start', 'end'}` windows
inside `businessHours`) are modelled as immutable `Prim` values: the merge
reads and copies them but never looks inside them, and only the identity
of the top-level and section dictionaries is at issue. -/

/-- Scalar (non-section) configuration value. -/
inductive Prim where
  | pstr (s : String)
  | pnum (q : ℚ)
  | pbool (b : Bool)
  | pnone
  | pnumList (l : List ℚ)
  | pwindow (startH endH : ℤ)
deriving DecidableEq, Repr

/-- Dictionary value: a scalar, or a reference to another dictionary. -/
inductive DVal where
  | prim (p : Prim)
  | ref (a : ℕ)
deriving DecidableEq, Repr

/-- Python dictionary: ordered key-value pairs with unique keys. -/
abbrev Dict := List (String × DVal)

/-- Heap of dictionary objects; the address of a dictionary is its index,
`h.length` is the next address to be allocated. -/
abbrev Heap := List Dict

/-- Dictionary lookup `d[k]` / `d.get(k)`. -/
def dictGet (d : Dict) (k : String) : Option DVal :=
  (d.find? fun kv => kv.1 == k).map (·.2)

/-- Dictionary assignment `d[k] = v`: overwrite in place (keeping the key's
position) or append a new key. -/
def dictInsert (d : Dict) (k : String) (v : DVal) : Dict :=
  if d.any (fun kv => kv.1 == k) then
    d.map fun kv => if kv.1 == k then (k, v) else kv
  else d ++ [(k, v)]

/-- Right-biased dictionary merge `{**a, **b}`: `a`'s entries in order,
overridden and extended by `b`'s. -/
def mergeDicts (a b : Dict) : Dict :=
  b.foldl (fun d kv => dictInsert d kv.1 kv.2) a

/-- User-supplied configuration value: a scalar, or a nested dictionary of
scalars (`isinstance(value, dict)` distinguishes the two). -/
inductive UVal where
  | uprim (p : Prim)
  | udict (d : List (String × Prim))
deriving DecidableEq, Repr

/-- The dictionary object behind a user-supplied nested dictionary. -/
def userDict (d : List (String × Prim)) : Dict :=
  d.map fun kp => (kp.1, DVal.prim kp.2)

/-- One iteration of the merge loop over `user_config.items()`, acting on
the working copy at address `cAddr`:
nested-dictionary values meeting a dictionary in the copy allocate a fresh
`{**config[key], **value}`; any other value is assigned wholesale (a
user-supplied nested dictionary assigned wholesale is its own object,
modelled by allocating it). -/
def mergeStep (cAddr : ℕ) (h : Heap) (kv : String × UVal) : Heap :=
  let cur := h.getD cAddr []
  match kv.2 with
  | UVal.uprim p => h.set cAddr (dictInsert cur kv.1 (DVal.prim p))
  | UVal.udict ud =>
    match dictGet cur kv.1 with
    | some (DVal.ref a) =>
      (h ++ [mergeDicts (h.getD a []) (userDict ud)]).set cAddr
        (dictInsert cur kv.1 (DVal.ref h.length))
    | _ =>
      (h ++ [userDict ud]).set cAddr
        (dictInsert cur kv.1 (DVal.ref h.length))

/-- Embedding of `merge_config`: `config = DEFAULT_CONFIG.copy()`
allocates a fresh top-level dictionary with the same entries (section
values still references to the default section dictionaries), then the
merge loop runs over the user items.  Returns the address of the merged
configuration and the final heap. -/
def merge_config (h : Heap) (defaultAddr : ℕ) (user : List (String × UVal)) :
    ℕ × Heap :=
  let cAddr := h.length
  let h1 := h ++ [h.getD defaultAddr []]
  (cAddr, user.foldl (mergeStep cAddr) h1)

/-- The `businessHours` section of `DEFAULT_CONFIG`. -/
def businessHoursDict : Dict :=
  [("monday", DVal.prim (Prim.pwindow 7 18)),
   ("tuesday", DVal.prim (Prim.pwindow 7 18)),
   ("wednesday", DVal.prim (Prim.pwindow 7 18)),
   ("thursday", DVal.prim (Prim.pwindow 7 18)),
   ("friday", DVal.prim (Prim.pwindow 7 18)),
   ("saturday", DVal.prim Prim.pnone),
   ("sunday", DVal.prim Prim.pnone)]

/-- The `baseline` section of `DEFAULT_CONFIG`. -/
def baselineDict : Dict :=
  [("weeksCount", DVal.prim (Prim.pnum 4)),
   ("minCompleteness", DVal.prim (Prim.pnum 70))]

/-- The `sensorHealth` section of `DEFAULT_CONFIG`. -/
def sensorHealthDict : Dict :=
  [("gapMultiplier", DVal.prim (Prim.pnum 2)),
   ("staleHours", DVal.prim (Prim.pnum 2)),
   ("missingThresholdPct", DVal.prim (Prim.pnum 10)),
   ("flatlineHours", DVal.prim (Prim.pnum 6)),
   ("flatlineVarianceThreshold", DVal.prim (Prim.pnum (1/100)))]

/-- The `afterHours` section of `DEFAULT_CONFIG`. -/
def afterHoursDict : Dict :=
  [("baselinePercentile", DVal.prim (Prim.pnum 5)),
   ("minPowerThreshold", DVal.prim (Prim.pnum (1/10))),
   ("minExcessKwh", DVal.prim (Prim.pnum 10))]

/-- The `anomaly` section of `DEFAULT_CONFIG`. -/
def anomalyDict : Dict :=
  [("iqrMultiplier", DVal.prim (Prim.pnum 3)),
   ("zScoreThreshold", DVal.prim (Prim.pnum 3)),
   ("minConsecutiveIntervals", DVal.prim (Prim.pnum 3)),
   ("minExcessKwh", DVal.prim (Prim.pnum 5))]

/-- The `spike` section of `DEFAULT_CONFIG`. -/
def spikeDict : Dict :=
  [("baselinePercentile", DVal.prim (Prim.pnum 95)),
   ("multiplier", DVal.prim (Prim.pnum (3/2))),
   ("submeterMinKw", DVal.prim (Prim.pnum 5)),
   ("siteMinKw", DVal.prim (Prim.pnum 20)),
   ("minDuration", DVal.prim (Prim.pnum 1))]

/-- The `quickWins` section of `DEFAULT_CONFIG`. -/
def quickWinsDict : Dict :=
  [("maxCount", DVal.prim (Prim.pnum 10)),
   ("minWeeklyImpact", DVal.prim (Prim.pnum 10))]

/-- The `tariff` section of `DEFAULT_CONFIG`. -/
def tariffDict : Dict :=
  [("defaultRate", DVal.prim (Prim.pnum (12/100))),
   ("demandCharge", DVal.prim Prim.pnone)]

/-- The `output` section of `DEFAULT_CONFIG`. -/
def outputDict : Dict :=
  [("includeCharts", DVal.prim (Prim.pbool true)),
   ("includeRawData", DVal.prim (Prim.pbool false)),
   ("precision", DVal.prim (Prim.pnum 2))]

/-- The top-level `DEFAULT_CONFIG` dictionary, with its sections at
addresses 0-8 of `defaultHeap`, keys in source order. -/
def defaultTopDict : Dict :=
  [("timezone", DVal.prim (Prim.pstr "America/New_York")),
   ("businessHours", DVal.ref 0),
   ("intervalPreferences", DVal.prim (Prim.pnumList [900, 1800, 3600])),
   ("baseline", DVal.ref 1),
   ("sensorHealth", DVal.ref 2),
   ("afterHours", DVal.ref 3),
   ("anomaly", DVal.ref 4),
   ("spike", DVal.ref 5),
   ("quickWins", DVal.ref 6),
   ("tariff", DVal.ref 7),
   ("output", DVal.ref 8)]

/-- Heap state at module load: the nine section dictionaries, then the
top-level `DEFAULT_CONFIG` dictionary at address 9. -/
def defaultHeap : Heap :=
  [businessHoursDict, baselineDict, sensorHealthDict, afterHoursDict,
   anomalyDict, spikeDict, quickWinsDict, tariffDict, outputDict,
   defaultTopDict]

/-- Address of `DEFAULT_CONFIG` in `defaultHeap`. -/
def defaultConfigAddr : ℕ := 9

/-! ### Run decomposition of the event-grouping loops

Both grouping loops fold a list of flagged readings into maximal runs of
gap-compatible consecutive readings.  `runs` is the specification-side
decomposition into those runs; each grouping function is proved equal to
mapping its event constructor over `runs`. -/

/-- Split a list into maximal runs: a new element extends the current run
when `gapOk last next` holds, otherwise a new run starts.  `x :: xs` is
the current (necessarily non-empty) run. -/
def runsAux {α : Type} (gapOk : α → α → Prop) [DecidableRel gapOk]
    (x : α) (xs : List α) : List α → List (List α)
  | [] => [x :: xs]
  | y :: rest =>
    if gapOk (xs.getLastD x) y then runsAux gapOk x (xs ++ [y]) rest
    else (x :: xs) :: runsAux gapOk y [] rest

/-- Maximal gap-compatible runs of a list. -/
def runs {α : Type} (gapOk : α → α → Prop) [DecidableRel gapOk] :
    List α → List (List α)
  | [] => []
  | y :: rest => runsAux gapOk y [] rest

theorem runsAux_flatten {α : Type} (gapOk : α → α → Prop) [DecidableRel gapOk]
    (rest : List α) : ∀ (x : α) (xs : List α),
    (runsAux gapOk x xs rest).flatten = x :: (xs ++ rest) := by
  induction rest with
  | nil => intro x xs; simp [runsAux]
  | cons y rest ih =>
    intro x xs
    rw [runsAux]
    by_cases h : gapOk (xs.getLastD x) y
    · rw [if_pos h, ih]
      simp
    · rw [if_neg h]
      simp [ih y]

theorem runs_flatten {α : Type} (gapOk : α → α → Prop) [DecidableRel gapOk]
    (l : List α) : (runs gapOk l).flatten = l := by
  cases l with
  | nil => rfl
  | cons y rest => simpa [runs] using runsAux_flatten gapOk rest y []

theorem runsAux_ne_nil {α : Type} (gapOk : α → α → Prop) [DecidableRel gapOk]
    (rest : List α) : ∀ (x : α) (xs : List α) (r : List α),
    r ∈ runsAux gapOk x xs rest → r ≠ [] := by
  induction rest with
  | nil =>
    intro x xs r hr
    simp [runsAux] at hr
    simp [hr]
  | cons y rest ih =>
    intro x xs r hr
    by_cases h : gapOk (xs.getLastD x) y
    · simp only [runsAux, if_pos h] at hr
      exact ih x (xs ++ [y]) r hr
    · simp only [runsAux, if_neg h, List.mem_cons] at hr
      rcases hr with rfl | hr
      · simp
      · exact ih y [] r hr

theorem runs_ne_nil {α : Type} (gapOk : α → α → Prop) [DecidableRel gapOk]
    (l : List α) (r : List α) (hr : r ∈ runs gapOk l) : r ≠ [] := by
  cases l with
  | nil => simp [runs] at hr
  | cons y rest => exact runsAux_ne_nil gapOk rest y [] r hr

theorem runs_sublist {α : Type} (gapOk : α → α → Prop) [DecidableRel gapOk]
    (l : List α) (r : List α) (hr : r ∈ runs gapOk l) : r.Sublist l := by
  have h := List.sublist_flatten_of_mem hr
  rwa [runs_flatten gapOk l] at h

/-- Gap compatibility of consecutive spikes:
`(curr - prev).total_seconds() <= interval_seconds * 2`. -/
abbrev spikeGapOk (interval_seconds : ℤ) (a b : SpikeRead) : Prop :=
  b.ts - a.ts ≤ interval_seconds * 2

/-- Open spike event holding exactly the run `x :: xs`. -/
def openOfRun (x : SpikeRead) (xs : List SpikeRead) : OpenSpike :=
  { start := x.ts, stop := (xs.getLastD x).ts
    peakPower := xs.foldl (fun a r => max a r.power) x.power
    totalExcessKwh := xs.foldl (fun a r => a + r.excessKwh) x.excessKwh
    intervals := xs.length + 1 }

/-- Closed spike event of one run. -/
def closeRunSpike : List SpikeRead → SpikeEvent
  | [] => { start := 0, stop := 0, peakPower := 0, totalExcessKwh := 0
            intervals := 0, duration := 0 }
  | x :: xs => spikeClose (openOfRun x xs)

theorem openOfRun_concat (x : SpikeRead) (xs : List SpikeRead) (s : SpikeRead) :
    openOfRun x (xs ++ [s]) = spikeFold (openOfRun x xs) s := by
  simp [openOfRun, spikeFold, List.getLastD_concat, List.foldl_append]

theorem groupSpikeAux_eq_runs (iv : ℤ) (rest : List SpikeRead) :
    ∀ (x : SpikeRead) (xs : List SpikeRead),
    groupSpikeAux iv (openOfRun x xs) rest =
      (runsAux (spikeGapOk iv) x xs rest).map closeRunSpike := by
  induction rest with
  | nil => intro x xs; rfl
  | cons y rest ih =>
    intro x xs
    show (if y.ts - (openOfRun x xs).stop ≤ iv * 2 then
        groupSpikeAux iv (spikeFold (openOfRun x xs) y) rest
      else spikeClose (openOfRun x xs) :: groupSpikeAux iv (spikeInit y) rest) = _
    have hstop : (openOfRun x xs).stop = (xs.getLastD x).ts := rfl
    rw [hstop]
    by_cases h : y.ts - (xs.getLastD x).ts ≤ iv * 2
    · rw [if_pos h, ← openOfRun_concat, ih]
      show _ = (runsAux (spikeGapOk iv) x xs (y :: rest)).map closeRunSpike
      rw [runsAux, if_pos h]
    · rw [if_neg h]
      have hinit : spikeInit y = openOfRun y [] := rfl
      rw [hinit, ih]
      show _ = (runsAux (spikeGapOk iv) x xs (y :: rest)).map closeRunSpike
      rw [runsAux, if_neg h, List.map_cons]
      rfl

/-- Characterization of `group_consecutive_spikes`: one closed event per
maximal run. -/
theorem group_consecutive_spikes_eq_runs (spikes : List SpikeRead) (iv : ℤ) :
    group_consecutive_spikes spikes iv =
      (runs (spikeGapOk iv) spikes).map closeRunSpike := by
  cases spikes with
  | nil => rfl
  | cons s rest =>
    have h := groupSpikeAux_eq_runs iv rest s []
    simpa [group_consecutive_spikes, runs] using h

/-- Gap compatibility of consecutive anomalies: fixed 2-hour tolerance
(`gap < 7200`). -/
abbrev anomGapOk (a b : AnomRead) : Prop := b.ts - a.ts < 7200

/-- Open anomaly event holding exactly the run `x :: xs`. -/
def openAnomOfRun (x : AnomRead) (xs : List AnomRead) : OpenAnom :=
  { start := x.ts, stop := (xs.getLastD x).ts
    readings := x :: xs
    peakPower := xs.foldl (fun a r => max a r.power) x.power
    totalExcessKwh := xs.foldl (fun a r => a + r.excessKwh) x.excessKwh }

/-- Closed anomaly event of one run (`none` when shorter than
`min_consecutive`). -/
def closeRunAnom (min_consecutive : ℕ) : List AnomRead → Option AnomEvent
  | [] => none
  | x :: xs => anomClose min_consecutive (openAnomOfRun x xs)

theorem openAnomOfRun_concat (x : AnomRead) (xs : List AnomRead) (s : AnomRead) :
    openAnomOfRun x (xs ++ [s]) = anomFold (openAnomOfRun x xs) s := by
  simp [openAnomOfRun, anomFold, List.getLastD_concat, List.foldl_append]

theorem groupAnomAux_eq_runs (min_consecutive : ℕ) (rest : List AnomRead) :
    ∀ (x : AnomRead) (xs : List AnomRead),
    groupAnomAux min_consecutive (openAnomOfRun x xs) rest =
      (runsAux anomGapOk x xs rest).filterMap (closeRunAnom min_consecutive) := by
  induction rest with
  | nil =>
    intro x xs
    show (anomClose min_consecutive (openAnomOfRun x xs)).toList = _
    cases h : anomClose min_consecutive (openAnomOfRun x xs) <;>
      simp [runsAux, List.filterMap_cons, closeRunAnom, h]
  | cons y rest ih =>
    intro x xs
    show (if y.ts - (openAnomOfRun x xs).stop < 7200 then
        groupAnomAux min_consecutive (anomFold (openAnomOfRun x xs) y) rest
      else (anomClose min_consecutive (openAnomOfRun x xs)).toList ++
        groupAnomAux min_consecutive (anomInit y) rest) = _
    have hstop : (openAnomOfRun x xs).stop = (xs.getLastD x).ts := rfl
    rw [hstop]
    by_cases h : y.ts - (xs.getLastD x).ts < 7200
    · rw [if_pos h, ← openAnomOfRun_concat, ih]
      show _ = (runsAux anomGapOk x xs (y :: rest)).filterMap (closeRunAnom min_consecutive)
      rw [runsAux, if_pos h]
    · rw [if_neg h]
      have hinit : anomInit y = openAnomOfRun y [] := rfl
      rw [hinit, ih]
      show _ = (runsAux anomGapOk x xs (y :: rest)).filterMap (closeRunAnom min_consecutive)
      rw [runsAux, if_neg h, List.filterMap_cons]
      have hclose : anomClose min_consecutive (openAnomOfRun x xs) =
          closeRunAnom min_consecutive (x :: xs) := rfl
      rw [hclose]
      cases hc : closeRunAnom min_consecutive (x :: xs) <;> simp [hc]

/-- Characterization of `group_consecutive_anomalies`: one closed event
per maximal run of at least `min_consecutive` readings. -/
theorem group_consecutive_anomalies_eq_runs (readings : List AnomRead)
    (min_consecutive : ℕ) :
    group_consecutive_anomalies readings min_consecutive =
      (runs anomGapOk readings).filterMap (closeRunAnom min_consecutive) := by
  cases readings with
  | nil => rfl
  | cons r rest =>
    have h := groupAnomAux_eq_runs min_consecutive rest r []
    simpa [group_consecutive_anomalies, runs] using h

/-- The left fold of `max` over a list lands in the list (with its seed). -/
theorem foldl_max_mem (x : ℚ) (xs : List ℚ) : xs.foldl max x ∈ x :: xs := by
  induction xs generalizing x with
  | nil => simp
  | cons y ys ih =>
    simp only [List.foldl_cons]
    rcases List.mem_cons.mp (ih (max x y)) with h | h
    · rcases max_choice x y with hc | hc <;> rw [hc] at h <;> simp [hc, h]
    · exact List.mem_cons_of_mem _ (List.mem_cons_of_mem _ h)

/-- The left fold of `max` bounds every element (and the seed) above. -/
theorem le_foldl_max (x : ℚ) (xs : List ℚ) :
    ∀ y ∈ x :: xs, y ≤ xs.foldl max x := by
  induction xs generalizing x with
  | nil =>
    intro y hy
    simp only [List.mem_singleton] at hy
    simp [hy]
  | cons z zs ih =>
    intro y hy
    simp only [List.foldl_cons]
    rcases List.mem_cons.mp hy with rfl | hy2
    · exact le_trans (le_max_left y z) (ih (max y z) _ (List.mem_cons_self _ _))
    · rcases List.mem_cons.mp hy2 with rfl | hy3
      · exact le_trans (le_max_right x y) (ih (max x y) _ (List.mem_cons_self _ _))
      · exact ih (max x z) y (List.mem_cons_of_mem _ hy3)

/-! ### Claim theorems

Concrete evaluations below go through `decide`; the rational arithmetic
operations are restored to their definitional transparency for that
purpose (they are deliberately sealed in the library to steer proofs
towards the simp lemmas, which is not at issue here). -/

set_option allowUnsafeReducibility true in
attribute [semireducible] Rat.add Rat.sub Rat.mul Rat.inv

/-- C8: the statistics kernel returns neutral values on degenerate input:
`calculate_stats([])` is the all-zero record (in particular its variance,
hence its standard deviation, is `0`); `percentile([], p) = 0` for every
`p`; and `z_score(v, m, 0) = 0` for every `v` and `m`. -/
theorem c8_stats_kernel_neutral_on_degenerate :
    calculate_stats [] = ⟨0, 0, 0, 0, 0, 0, 0⟩ ∧
      (∀ p : ℚ, percentile [] p = 0) ∧
      (∀ v m : ℚ, z_score v m 0 = 0) :=
  ⟨rfl, fun _ => rfl, fun v m => by simp [z_score]⟩

/-- C9: in the shared power-extraction expression
`r.get('P') or r.get('power_kw', 0)` used by all four detectors, a reading
whose `P` field is `0`, `None`, or absent takes the value of its
`power_kw` field, defaulting to `0` when that key is absent too; in
particular an exact-zero `P` with a nonzero `power_kw` yields the nonzero
`power_kw` value. -/
theorem c9_power_extraction_falls_back (r : Reading)
    (h : r.P = some (PyVal.num 0) ∨ r.P = some PyVal.null ∨ r.P = none) :
    powerExpr r = r.power_kw.getD (PyVal.num 0) := by
  rcases h with h | h | h <;> simp [powerExpr, pyOr, PyVal.truthy, h]

/-- Witness for C9: a reading with `P = 0` and `power_kw = 7` extracts
power `7`, not `0`. -/
theorem c9_witness :
    powerExpr ⟨0, some (PyVal.num 0), some (PyVal.num 7)⟩ = PyVal.num 7 := by
  have h := c9_power_extraction_falls_back
    ⟨0, some (PyVal.num 0), some (PyVal.num 7)⟩ (Or.inl rfl)
  simpa using h

/-- Baseline readings of spec Scenario A: five readings at hour-of-week 50
(Wednesday 02:00 UTC, one per week) with powers `[10, 10, 10, 10, 20]`. -/
def scenarioBaseline : List Reading :=
  [⟨525600, some (PyVal.num 10), none⟩,
   ⟨1130400, some (PyVal.num 10), none⟩,
   ⟨1735200, some (PyVal.num 10), none⟩,
   ⟨2340000, some (PyVal.num 10), none⟩,
   ⟨2944800, some (PyVal.num 20), none⟩]

/-- Report reading of spec Scenario A: power 15 at hour-of-week 50. -/
def scenarioReport : Reading := ⟨3549600, some (PyVal.num 15), none⟩

/-- C5: Scenario A.  With baseline powers `[10,10,10,10,20]` at
hour-of-week 50 and IQR multiplier 3 (the default), the profile entry for
hour 50 has `q1 = 10`, `q3 = 10`, `iqr = 0`, `upperThreshold = 10`, and a
report reading of power 15 at that hour is flagged anomalous (its record,
with excess `15 − 10 = 5` kW, enters the anomalous-readings list). -/
theorem c5_scenario_a :
    get_hour_of_week scenarioReport.ts = 50 ∧
      (∀ r ∈ scenarioBaseline, get_hour_of_week r.ts = 50) ∧
      (build_baseline_profile scenarioBaseline defaultConfig 50).map
          (fun e => (e.q1, e.q3, e.iqr, e.upperThreshold)) =
        some (10, 10, 0, 10) ∧
      anomalousReadings [scenarioReport] scenarioBaseline defaultConfig 900 =
        [{ ts := 3549600, power := 15, baselineMedian := 10, threshold := 10
           excessKw := 5, excessKwh := 5/4, isBusinessHours := false }] := by
  refine ⟨by decide, by decide, by decide, by decide⟩

theorem numPowers_filter_numeric (l : List Reading) :
    numPowers (l.filter numericPower) = numPowers l := by
  induction l with
  | nil => rfl
  | cons r rs ih =>
    cases hp : powerExpr r with
    | num q =>
      have hnum : numericPower r = true := by simp [numericPower, hp, PyVal.isNum]
      simp only [numPowers, List.filter_cons, hnum, if_pos, List.filterMap_cons, hp]
      simpa [numPowers] using ih
    | nan =>
      have hnum : numericPower r = false := by simp [numericPower, hp, PyVal.isNum]
      simp only [numPowers, List.filter_cons, hnum, List.filterMap_cons, hp]
      simpa [numPowers] using ih
    | null =>
      have hnum : numericPower r = false := by simp [numericPower, hp, PyVal.isNum]
      simp only [numPowers, List.filter_cons, hnum, List.filterMap_cons, hp]
      simpa [numPowers] using ih

theorem hourBucket_filter_numeric (l : List Reading) (how : ℤ) :
    hourBucket (l.filter numericPower) how =
      (hourBucket l how).filter numericPower := by
  simp only [hourBucket, List.filter_filter]
  apply List.filter_congr
  intro r _
  exact Bool.and_comm _ _

/-- C1: the baseline-profile builders exclude null/NaN power readings
rather than counting them as zero; restricting the baseline readings to
those with numeric power leaves both profiles (hence every bucket's
statistics, which `mkAnomProfile` computes from exactly the kept numeric
powers) unchanged at every hour of week. -/
theorem c1_baseline_profiles_exclude_nonnumeric (readings : List Reading)
    (config : Config) (how : ℤ) :
    build_baseline_profile (readings.filter numericPower) config how =
        build_baseline_profile readings config how ∧
      build_spike_baseline (readings.filter numericPower) how =
        build_spike_baseline readings how := by
  have key : numPowers (hourBucket (readings.filter numericPower) how) =
      numPowers (hourBucket readings how) := by
    rw [hourBucket_filter_numeric, numPowers_filter_numeric]
  constructor
  · simp only [build_baseline_profile, key]
  · simp only [build_spike_baseline, key]

/-- C2: every event produced by spike grouping and by anomaly grouping
aggregates an actual run of flagged readings from its input: its interval
count (`intervals` for spikes, the reading count rendered as `duration`
for anomalies) equals the number of readings folded in, and its
`peakPower` is the maximum power among exactly those readings (it is one
of their powers and bounds them all). -/
theorem c2_event_intervals_and_peak (spikes : List SpikeRead)
    (anoms : List AnomRead) (interval_seconds : ℤ) (min_consecutive : ℕ) :
    (∀ e ∈ group_consecutive_spikes spikes interval_seconds,
      ∃ x xs, (x :: xs).Sublist spikes ∧ e.intervals = (x :: xs).length ∧
        e.peakPower ∈ (x :: xs).map (fun r => r.power) ∧
        ∀ r ∈ x :: xs, r.power ≤ e.peakPower) ∧
    (∀ e ∈ group_consecutive_anomalies anoms min_consecutive,
      ∃ x xs, (x :: xs).Sublist anoms ∧ e.duration = (x :: xs).length ∧
        e.peakPower ∈ (x :: xs).map (fun r => r.power) ∧
        ∀ r ∈ x :: xs, r.power ≤ e.peakPower) := by
  constructor
  · intro e he
    rw [group_consecutive_spikes_eq_runs] at he
    obtain ⟨run, hrun, hclose⟩ := List.mem_map.mp he
    have hne := runsAux_ne_nil (spikeGapOk interval_seconds)
    obtain ⟨x, xs, rfl⟩ : ∃ x xs, run = x :: xs := by
      cases run with
      | nil => exact absurd rfl (runs_ne_nil _ _ _ hrun)
      | cons a l => exact ⟨a, l, rfl⟩
    have hsub := runs_sublist _ _ _ hrun
    refine ⟨x, xs, hsub, ?_, ?_, ?_⟩
    · rw [← hclose]; simp [closeRunSpike, spikeClose, openOfRun]
    · rw [← hclose]
      have hfold : (closeRunSpike (x :: xs)).peakPower =
          (xs.map (fun r => r.power)).foldl max x.power := by
        simp [closeRunSpike, spikeClose, openOfRun, List.foldl_map]
      rw [hfold, List.map_cons]
      exact foldl_max_mem x.power (xs.map (fun r => r.power))
    · intro r hr
      rw [← hclose]
      have hfold : (closeRunSpike (x :: xs)).peakPower =
          (xs.map (fun r => r.power)).foldl max x.power := by
        simp [closeRunSpike, spikeClose, openOfRun, List.foldl_map]
      rw [hfold]
      apply le_foldl_max x.power (xs.map (fun r => r.power))
      rcases List.mem_cons.mp hr with rfl | hr2
      · exact List.mem_cons_self _ _
      · exact List.mem_cons_of_mem _ (List.mem_map_of_mem _ hr2)
  · intro e he
    rw [group_consecutive_anomalies_eq_runs] at he
    obtain ⟨run, hrun, hclose⟩ := List.mem_filterMap.mp he
    obtain ⟨x, xs, rfl⟩ : ∃ x xs, run = x :: xs := by
      cases run with
      | nil => exact absurd rfl (runs_ne_nil _ _ _ hrun)
      | cons a l => exact ⟨a, l, rfl⟩
    have hsub := runs_sublist _ _ _ hrun
    simp only [closeRunAnom, anomClose, openAnomOfRun] at hclose
    by_cases hlen : (x :: xs).length ≥ min_consecutive
    · rw [if_pos hlen] at hclose
      obtain rfl := Option.some.inj hclose
      refine ⟨x, xs, hsub, ?_, ?_, ?_⟩
      · simp
      · have hfold : (xs.map (fun r => r.power)).foldl max x.power =
            xs.foldl (fun a r => max a r.power) x.power := List.foldl_map _ _ _ _
        simp only [List.map_cons]
        rw [← hfold]
        exact foldl_max_mem x.power (xs.map (fun r => r.power))
      · intro r hr
        have hfold : (xs.map (fun r => r.power)).foldl max x.power =
            xs.foldl (fun a r => max a r.power) x.power := List.foldl_map _ _ _ _
        simp only
        rw [← hfold]
        apply le_foldl_max x.power (xs.map (fun r => r.power))
        rcases List.mem_cons.mp hr with rfl | hr2
        · exact List.mem_cons_self _ _
        · exact List.mem_cons_of_mem _ (List.mem_map_of_mem _ hr2)
    · rw [if_neg hlen] at hclose
      exact absurd hclose (by simp)

/-- Witness spike reading for C2. -/
def spikeReadW : SpikeRead :=
  { ts := 0, power := 30, baselineP95 := 10, threshold := 15
    excessKw := 20, excessKwh := 5 }

/-- Witness for C2: the single event grouped from one flagged spike
reading carries interval count 1 and that reading's power as peak. -/
theorem c2_witness :
    ∃ x xs, (x :: xs).Sublist [spikeReadW] ∧
      (spikeClose (spikeInit spikeReadW)).intervals = (x :: xs).length ∧
      (spikeClose (spikeInit spikeReadW)).peakPower ∈
        (x :: xs).map (fun r => r.power) ∧
      ∀ r ∈ x :: xs, r.power ≤ (spikeClose (spikeInit spikeReadW)).peakPower :=
  (c2_event_intervals_and_peak [spikeReadW] [] 900 1).1
    (spikeClose (spikeInit spikeReadW)) (by decide)

/-- C6: the quick-wins list is bounded by `quickWins.maxCount` and sorted:
priority ranks are non-decreasing numerically (every `high` entry precedes
every `medium` entry, which precedes every `low` entry), and entries of
equal priority appear in order of non-increasing impact kWh, non-numeric
impact (`N/A`) counting as `0`. -/
theorem c6_quick_wins_bounded_and_sorted (analytics : QWAnalytics)
    (config : Config) :
    (generate_quick_wins analytics config).length ≤ config.quickWins.maxCount ∧
      List.Pairwise (fun a b : QuickWin =>
        priorityRank a.priority ≤ priorityRank b.priority ∧
          (priorityRank a.priority = priorityRank b.priority →
            b.impact.weeklyKwh.getD 0 ≤ a.impact.weeklyKwh.getD 0))
        (generate_quick_wins analytics config) := by
  unfold generate_quick_wins
  constructor
  · exact List.length_take_le _ _
  · have hs := List.sorted_insertionSort winLe
      (afterHoursWins analytics config ++ sensorWins analytics ++
        anomalyWins analytics config ++ spikeWins analytics config ++
        flatlineWins analytics ++ summaryWins analytics)
    have hp := List.Pairwise.sublist
      (List.take_sublist config.quickWins.maxCount _) hs
    refine hp.imp ?_
    intro a b h
    rcases h with h | ⟨e, i⟩
    · exact ⟨Nat.le_of_lt h, fun e2 => absurd e2 (Nat.ne_of_lt h)⟩
    · exact ⟨Nat.le_of_eq e, fun _ => i⟩

/-- Absolute spike floor of a channel: `siteMinKw` when the channel is the
designated site-total channel (as determined by `analyze_spikes`),
`submeterMinKw` otherwise. -/
def spikeFloor (channel_data : ChannelData) (config : Config)
    (site_channel_id : Option String) : ℚ :=
  if isSiteTotal channel_data.channelId site_channel_id then
    config.spike.siteMinKw
  else config.spike.submeterMinKw

/-- The spike record `detect_spikes` emits for a reading of numeric power
`q` whose hour has baseline entry `bs`. -/
def mkSpikeRead (r : Reading) (q : ℚ) (bs : SpikeBaseline) (threshold : ℚ)
    (interval_seconds : ℤ) : SpikeRead :=
  { ts := r.ts, power := q, baselineP95 := bs.p95, threshold := threshold
    excessKw := q - bs.p95
    excessKwh := (q - bs.p95) * get_interval_hours interval_seconds }

/-- C7: a report reading whose hour of week has a spike-baseline entry is
flagged as a spike exactly when its power exceeds both
`max(p95 × multiplier, absoluteFloor)` and `absoluteFloor`, the floor
being `siteMinKw` for the designated site-total channel and
`submeterMinKw` otherwise. -/
theorem c7_spike_flag_iff (channel_data : ChannelData) (bd : BaselineData)
    (config : Config) (interval_seconds : ℤ) (site_channel_id : Option String)
    (r : Reading) (bs : SpikeBaseline) (q : ℚ)
    (hmem : r ∈ channel_data.readings)
    (hbs : build_spike_baseline bd.readings (get_hour_of_week r.ts) = some bs)
    (hq : powerExpr r = PyVal.num q) :
    (q > max (bs.p95 * config.spike.multiplier)
          (spikeFloor channel_data config site_channel_id) ∧
        q > spikeFloor channel_data config site_channel_id) ↔
      mkSpikeRead r q bs
          (max (bs.p95 * config.spike.multiplier)
            (spikeFloor channel_data config site_channel_id)) interval_seconds ∈
        spikeReadings channel_data.readings bd.readings config interval_seconds
          (spikeFloor channel_data config site_channel_id) := by
  constructor
  · intro hcond
    unfold spikeReadings
    refine List.mem_filterMap.mpr ⟨r, hmem, ?_⟩
    simp only [hbs, hq]
    rw [if_pos hcond]
    simp [mkSpikeRead]
  · intro hmem2
    unfold spikeReadings at hmem2
    obtain ⟨r2, _, heq⟩ := List.mem_filterMap.mp hmem2
    cases hb2 : build_spike_baseline bd.readings (get_hour_of_week r2.ts) with
    | none => simp [hb2] at heq
    | some bs2 =>
      cases hq2 : powerExpr r2 with
      | num q2 =>
        simp only [hb2, hq2] at heq
        by_cases hcond2 : q2 > max (bs2.p95 * config.spike.multiplier)
            (spikeFloor channel_data config site_channel_id) ∧
            q2 > spikeFloor channel_data config site_channel_id
        · rw [if_pos hcond2] at heq
          have h := Option.some.inj heq
          simp only [mkSpikeRead, SpikeRead.mk.injEq] at h
          obtain ⟨-, hq2q, -, hthr, -, -⟩ := h
          rw [hq2q, hthr] at hcond2
          exact hcond2
        · rw [if_neg hcond2] at heq
          exact absurd heq (by simp)
      | nan => simp [hb2, hq2] at heq
      | null => simp [hb2, hq2] at heq

/-- Witness channel for C7: one report reading of power 100 at
hour-of-week 50. -/
def chW : ChannelData :=
  { channelId := "c1", channelName := "Meter 1"
    readings := [⟨3549600, some (PyVal.num 100), none⟩]
    expectedIntervals := none }

/-- Witness baseline for C7: one baseline reading of power 10 at
hour-of-week 50, so the hourly p95 is 10. -/
def bdW : BaselineData :=
  { channelId := "c1", readings := [⟨525600, some (PyVal.num 10), none⟩] }

/-- Witness for C7: with hourly p95 = 10, multiplier 1.5 and submeter
floor 5, a power of 100 exceeds both bounds and its record is flagged. -/
theorem c7_witness :
    mkSpikeRead ⟨3549600, some (PyVal.num 100), none⟩ 100 ⟨10, 10, 1⟩
        (max ((10 : ℚ) * defaultConfig.spike.multiplier)
          (spikeFloor chW defaultConfig none)) 900 ∈
      spikeReadings chW.readings bdW.readings defaultConfig 900
        (spikeFloor chW defaultConfig none) := by
  exact (c7_spike_flag_iff chW bdW defaultConfig 900 none
    ⟨3549600, some (PyVal.num 100), none⟩ ⟨10, 10, 1⟩ 100
    (by decide) (by decide) rfl).mp (by decide)

theorem staleIssue_isStale (channel_data : ChannelData) (config : Config)
    (now : ℤ) (i : Issue) (h : staleIssue channel_data config now = some i) :
    i.isStale = true := by
  unfold staleIssue at h
  cases hl : channel_data.readings.getLast? with
  | none => simp only [hl] at h; exact absurd h (by simp)
  | some lr =>
    simp only [hl] at h
    by_cases hc : ((now : ℚ) - (lr.ts : ℚ)) / 3600 > config.sensorHealth.staleHours
    · rw [if_pos hc] at h
      obtain rfl := Option.some.inj h
      rfl
    · rw [if_neg hc] at h
      exact absurd h (by simp)

/-- C4 (amended): each detector is a pure function of its explicit inputs
except for the staleness check of the sensor-health analyzer, which reads
the wall clock; with the clock made an explicit `now` input, every
non-staleness issue produced by `analyze_sensor_health` is independent of
`now` (the anomaly, spike and after-hours analyzers take no `now` at all,
so their determinism is immediate in this embedding). -/
theorem c4_sensor_health_now_only_affects_staleness (channel_data : ChannelData)
    (config : Config) (interval_seconds now1 now2 : ℤ) :
    (analyze_sensor_health channel_data config interval_seconds now1).filter
        (fun i => ! i.isStale) =
      (analyze_sensor_health channel_data config interval_seconds now2).filter
        (fun i => ! i.isStale) := by
  have key : ∀ now : ℤ,
      ((staleIssue channel_data config now).toList).filter
        (fun i => ! i.isStale) = [] := by
    intro now
    cases hs : staleIssue channel_data config now with
    | none => simp
    | some i =>
      have hstale := staleIssue_isStale channel_data config now i hs
      simp [hstale]
  unfold analyze_sensor_health
  simp only [List.filter_append, key]

/-- Counterexample channel for C4: a single reading at epoch second 0. -/
def chStale : ChannelData :=
  { channelId := "c1", channelName := "Meter 1"
    readings := [⟨0, some (PyVal.num 5), none⟩]
    expectedIntervals := none }

/-- Counterexample for C4: `analyze_sensor_health` is not a function of
the channel data, configuration and resolution alone — invoked one hour
after the last reading it reports no issue, invoked ten hours after it
reports a stale-data issue, on identical inputs. -/
theorem c4_counterexample :
    analyze_sensor_health chStale defaultConfig 900 3600 ≠
      analyze_sensor_health chStale defaultConfig 900 36000 := by decide

theorem mem_topMeters_isSignificant (channels_data : List ChannelData)
    (baselines_data : List BaselineData) (config : Config)
    (interval_seconds : ℤ) (x : AHResult)
    (hx : x ∈ (analyze_after_hours_waste channels_data baselines_data config
      interval_seconds).topMeters) :
    x.isSignificant = true := by
  unfold analyze_after_hours_waste at hx
  simp only at hx
  have h1 := List.mem_of_mem_take hx
  have h2 := (List.mem_insertionSort _).mp h1
  obtain ⟨ch, _, hsome⟩ := List.mem_filterMap.mp h2
  cases hf : findBaseline baselines_data ch.channelId with
  | none => simp [hf] at hsome
  | some b =>
    simp only [hf] at hsome
    by_cases he : b.readings.isEmpty
    · simp [he] at hsome
    · simp only [he, Bool.false_eq_true, if_false] at hsome
      by_cases hs :
          (calculate_after_hours_waste ch b.readings config interval_seconds).isSignificant
      · rw [if_pos hs] at hsome
        obtain rfl := Option.some.inj hsome
        exact hs
      · rw [if_neg hs] at hsome
        exact absurd hsome (by simp)

/-- C3 (amended): a channel whose report-period after-hours powers are all
numeric and at most its computed after-hours baseline power accumulates
zero excess: its reported `excessAfterHoursKwh` is `0`, and — provided the
significance threshold `afterHours.minExcessKwh` is positive, as in the
default configuration — the channel is not significant and its result
record cannot appear in the site-level `topMeters` list (whose members all
have `isSignificant = true`). -/
theorem c3_no_excess_channel_excluded (config : Config) (interval_seconds : ℤ)
    (channel_data : ChannelData) (baseline_data : List Reading)
    (channels_data : List ChannelData) (baselines_data : List BaselineData)
    (hmin : 0 < config.afterHours.minExcessKwh)
    (hle : ∀ rr ∈ reportAfterHoursReadings channel_data config,
      ∃ q : ℚ, rr.power = PyVal.num q ∧
        q ≤ afterHoursBaselineKw baseline_data config) :
    (calculate_after_hours_waste channel_data baseline_data config
        interval_seconds).thisWeek.excessAfterHoursKwh = 0 ∧
      (calculate_after_hours_waste channel_data baseline_data config
        interval_seconds).isSignificant = false ∧
      calculate_after_hours_waste channel_data baseline_data config
          interval_seconds ∉
        (analyze_after_hours_waste channels_data baselines_data config
          interval_seconds).topMeters := by
  have hsum : ((reportAfterHoursReadings channel_data config).map fun rr =>
      max 0 (pvQ rr.power - afterHoursBaselineKw baseline_data config) *
        get_interval_hours interval_seconds).sum = 0 := by
    apply List.sum_eq_zero
    intro y hy
    obtain ⟨rr, hrr, rfl⟩ := List.mem_map.mp hy
    obtain ⟨q, hq, hqle⟩ := hle rr hrr
    rw [hq]
    show max 0 (q - afterHoursBaselineKw baseline_data config) *
      get_interval_hours interval_seconds = 0
    rw [max_eq_left (sub_nonpos.mpr hqle), zero_mul]
  have hzero : (calculate_after_hours_waste channel_data baseline_data config
      interval_seconds).thisWeek.excessAfterHoursKwh = 0 := by
    simp only [calculate_after_hours_waste]
    rw [hsum]
    decide
  have hsig : (calculate_after_hours_waste channel_data baseline_data config
      interval_seconds).isSignificant = false := by
    simp only [calculate_after_hours_waste]
    rw [hsum]
    exact decide_eq_false (not_le.mpr hmin)
  refine ⟨hzero, hsig, ?_⟩
  intro hmem
  have htrue := mem_topMeters_isSignificant channels_data baselines_data config
    interval_seconds _ hmem
  rw [hsig] at htrue
  exact absurd htrue (by simp)

/-- Witness channel for C3: one after-hours reading of power 4. -/
def chC3 : ChannelData :=
  { channelId := "c1", channelName := "Meter 1"
    readings := [⟨3549600, some (PyVal.num 4), none⟩]
    expectedIntervals := none }

/-- Witness baseline readings for C3: one after-hours reading of power 5,
so the after-hours baseline power is 5. -/
def bC3 : List Reading := [⟨525600, some (PyVal.num 5), none⟩]

/-- Witness for C3: with after-hours power 4 against baseline 5 under the
default configuration (threshold 10), the excess is 0, the channel is not
significant, and its record is absent from `topMeters`. -/
theorem c3_witness :
    (calculate_after_hours_waste chC3 bC3 defaultConfig 900).thisWeek.excessAfterHoursKwh
        = 0 ∧
      (calculate_after_hours_waste chC3 bC3 defaultConfig 900).isSignificant = false ∧
      calculate_after_hours_waste chC3 bC3 defaultConfig 900 ∉
        (analyze_after_hours_waste [] [] defaultConfig 900).topMeters :=
  c3_no_excess_channel_excluded defaultConfig 900 chC3 bC3 [] [] (by decide)
    (by
      intro rr hrr
      have hred : reportAfterHoursReadings chC3 defaultConfig =
          [⟨3549600, PyVal.num 4⟩] := by decide
      rw [hred] at hrr
      obtain rfl := List.mem_singleton.mp hrr
      exact ⟨4, rfl, by decide⟩)

/-- Configuration with a zero significance threshold for after-hours
excess. -/
def cfgC3 : Config :=
  { defaultConfig with
    afterHours := { defaultConfig.afterHours with minExcessKwh := 0 } }

/-- Counterexample for C3 as stated: with `afterHours.minExcessKwh = 0`, a
channel all of whose report-period after-hours powers are below its
after-hours baseline yields `excessAfterHoursKwh = 0` and nevertheless
appears in the site-level `topMeters` list (zero excess counts as
significant under a non-positive threshold). -/
theorem c3_counterexample :
    (∀ rr ∈ reportAfterHoursReadings chC3 cfgC3,
        ∃ q : ℚ, rr.power = PyVal.num q ∧ q ≤ afterHoursBaselineKw bC3 cfgC3) ∧
      (calculate_after_hours_waste chC3 bC3 cfgC3 900).thisWeek.excessAfterHoursKwh
          = 0 ∧
      calculate_after_hours_waste chC3 bC3 cfgC3 900 ∈
        (analyze_after_hours_waste [chC3] [⟨"c1", bC3⟩] cfgC3 900).topMeters := by
  refine ⟨?_, by decide, by decide⟩
  intro rr hrr
  have hred : reportAfterHoursReadings chC3 cfgC3 =
      [⟨3549600, PyVal.num 4⟩] := by decide
  rw [hred] at hrr
  obtain rfl := List.mem_singleton.mp hrr
  exact ⟨4, rfl, by decide⟩

theorem dictGet_dictInsert_sub (d : Dict) (k : String) (v : DVal)
    (k2 : String) (val : DVal)
    (h : dictGet (dictInsert d k v) k2 = some val) :
    val = v ∨ dictGet d k2 = some val := by
  unfold dictInsert at h
  by_cases hany : d.any (fun kv => kv.1 == k)
  · rw [if_pos hany] at h
    clear hany
    induction d with
    | nil => simp [dictGet] at h
    | cons e d ih =>
      rw [List.map_cons] at h
      by_cases he : e.1 == k
      · rw [if_pos he] at h
        cases hk2 : ((k : String) == k2) with
        | true =>
          simp only [dictGet, List.find?_cons, hk2] at h
          exact Or.inl (Option.some.inj h).symm
        | false =>
          have he2 : (e.1 == k2) = false := by
            have hek : e.1 = k := eq_of_beq he
            rw [hek]; exact hk2
          simp only [dictGet, List.find?_cons, hk2, he2] at h ⊢
          exact ih h
      · rw [if_neg he] at h
        cases hk2 : (e.1 == k2) with
        | true =>
          simp only [dictGet, List.find?_cons, hk2] at h ⊢
          exact Or.inr h
        | false =>
          simp only [dictGet, List.find?_cons, hk2] at h ⊢
          exact ih h
  · rw [if_neg hany] at h
    clear hany
    induction d with
    | nil =>
      rw [List.nil_append] at h
      cases hk2 : ((k : String) == k2) with
      | true =>
        simp only [dictGet, List.find?_cons, hk2] at h
        exact Or.inl (Option.some.inj h).symm
      | false =>
        simp only [dictGet, List.find?_cons, hk2] at h
        simp [dictGet] at h
    | cons e d ih =>
      rw [List.cons_append] at h
      cases hk2 : (e.1 == k2) with
      | true =>
        simp only [dictGet, List.find?_cons, hk2] at h ⊢
        exact Or.inr h
      | false =>
        simp only [dictGet, List.find?_cons, hk2] at h ⊢
        exact ih h

theorem getD_set_self (h : Heap) (i : ℕ) (d : Dict) (hi : i < h.length) :
    (h.set i d).getD i [] = d := by
  simp [List.getD_eq_getElem?_getD, List.getElem?_set_self hi]

/-- Invariant maintained by the merge loop over the heap: the working copy
lives at address `h0.length`, every pre-existing dictionary is untouched,
and every section reference in the working copy is either the original
default reference or freshly allocated. -/
def MergeInv (h0 : Heap) (defaultAddr : ℕ) (h : Heap) : Prop :=
  h0.length < h.length ∧
    (∀ a : ℕ, a < h0.length → h[a]? = h0[a]?) ∧
    (∀ k a, dictGet (h.getD h0.length []) k = some (DVal.ref a) →
      dictGet (h0.getD defaultAddr []) k = some (DVal.ref a) ∨ h0.length ≤ a)

theorem mergeInv_init (h0 : Heap) (defaultAddr : ℕ) :
    MergeInv h0 defaultAddr (h0 ++ [h0.getD defaultAddr []]) := by
  refine ⟨by simp, ?_, ?_⟩
  · intro a ha
    exact List.getElem?_append_left ha
  · intro k a hk
    have htop : (h0 ++ [h0.getD defaultAddr []]).getD h0.length [] =
        h0.getD defaultAddr [] := by
      simp [List.getD_eq_getElem?_getD, List.getElem?_concat_length]
    rw [htop] at hk
    exact Or.inl hk

theorem mergeInv_step (h0 : Heap) (defaultAddr : ℕ) (h : Heap)
    (kv : String × UVal) (hInv : MergeInv h0 defaultAddr h) :
    MergeInv h0 defaultAddr (mergeStep h0.length h kv) := by
  obtain ⟨hlen, hpre, htop⟩ := hInv
  obtain ⟨k, uv⟩ := kv
  cases uv with
  | uprim p =>
    show MergeInv h0 defaultAddr
      (h.set h0.length (dictInsert (h.getD h0.length []) k (DVal.prim p)))
    refine ⟨by simpa using hlen, ?_, ?_⟩
    · intro a ha
      rw [List.getElem?_set_ne (Nat.ne_of_lt ha).symm]
      exact hpre a ha
    · intro k2 a hk2
      rw [getD_set_self _ _ _ hlen] at hk2
      rcases dictGet_dictInsert_sub _ _ _ _ _ hk2 with heq | hold
      · exact absurd heq (by simp)
      · exact htop k2 a hold
  | udict ud =>
    show MergeInv h0 defaultAddr
      (match dictGet (h.getD h0.length []) k with
        | some (DVal.ref a) =>
          (h ++ [mergeDicts (h.getD a []) (userDict ud)]).set h0.length
            (dictInsert (h.getD h0.length []) k (DVal.ref h.length))
        | _ =>
          (h ++ [userDict ud]).set h0.length
            (dictInsert (h.getD h0.length []) k (DVal.ref h.length)))
    have hgen : ∀ newDict : Dict, MergeInv h0 defaultAddr
        ((h ++ [newDict]).set h0.length
          (dictInsert (h.getD h0.length []) k (DVal.ref h.length))) := by
      intro newDict
      have hlen2 : h0.length < (h ++ [newDict]).length := by
        simp only [List.length_append, List.length_cons, List.length_nil]
        omega
      refine ⟨by simpa using hlen2, ?_, ?_⟩
      · intro a ha
        rw [List.getElem?_set_ne (Nat.ne_of_lt ha).symm]
        rw [List.getElem?_append_left (Nat.lt_trans ha hlen)]
        exact hpre a ha
      · intro k2 a hk2
        rw [getD_set_self _ _ _ hlen2] at hk2
        rcases dictGet_dictInsert_sub _ _ _ _ _ hk2 with heq | hold
        · right
          have : a = h.length := by
            cases heq
            rfl
          omega
        · exact htop k2 a hold
    cases hdg : dictGet (h.getD h0.length []) k with
    | none => exact hgen _
    | some v =>
      cases v with
      | prim p2 => exact hgen _
      | ref a0 => exact hgen _

theorem mergeInv_fold (h0 : Heap) (defaultAddr : ℕ)
    (user : List (String × UVal)) :
    ∀ h : Heap, MergeInv h0 defaultAddr h →
      MergeInv h0 defaultAddr (user.foldl (mergeStep h0.length) h) := by
  induction user with
  | nil => intro h hInv; exact hInv
  | cons kv user ih =>
    intro h hInv
    exact ih _ (mergeInv_step h0 defaultAddr h kv hInv)

/-- C10 (amended): `merge_config` never mutates `DEFAULT_CONFIG` — every
dictionary existing before the call (the default top-level dictionary and
all its section dictionaries) is unchanged on the final heap; the returned
configuration is a freshly allocated top-level dictionary; and each of its
section references is either the original default section (shared
unmodified) or a freshly allocated dictionary. -/
theorem c10_merge_config_no_mutation (user : List (String × UVal)) :
    (∀ a : ℕ, a < defaultHeap.length →
        ((merge_config defaultHeap defaultConfigAddr user).2)[a]? =
          defaultHeap[a]?) ∧
      (merge_config defaultHeap defaultConfigAddr user).1 = defaultHeap.length ∧
      (∀ k a, dictGet (((merge_config defaultHeap defaultConfigAddr user).2).getD
            (merge_config defaultHeap defaultConfigAddr user).1 []) k =
          some (DVal.ref a) →
        dictGet defaultTopDict k = some (DVal.ref a) ∨ defaultHeap.length ≤ a) := by
  have hInv := mergeInv_fold defaultHeap defaultConfigAddr user _
    (mergeInv_init defaultHeap defaultConfigAddr)
  obtain ⟨-, hpre, htop⟩ := hInv
  refine ⟨?_, rfl, ?_⟩
  · intro a ha
    exact hpre a ha
  · intro k a hk
    have hdd : defaultHeap.getD defaultConfigAddr [] = defaultTopDict := by decide
    rcases htop k a hk with h | h
    · left; rwa [hdd] at h
    · right; exact h

/-- Witness for C10: merging the empty override leaves heap cell 0 (the
`businessHours` section) untouched, returns a fresh top-level address, and
the merged configuration's `anomaly` entry is still the default section
reference. -/
theorem c10_witness :
    ((merge_config defaultHeap defaultConfigAddr []).2)[0]? = defaultHeap[0]? ∧
      (merge_config defaultHeap defaultConfigAddr []).1 = defaultHeap.length ∧
      (dictGet defaultTopDict "anomaly" = some (DVal.ref 4) ∨
        defaultHeap.length ≤ 4) := by
  have h := c10_merge_config_no_mutation []
  exact ⟨h.1 0 (by decide), h.2.1, h.2.2 "anomaly" 4 (by decide)⟩

/-- Override used for the C10 counterexample: a nested user dictionary for
the `anomaly` section only. -/
def userC10 : List (String × UVal) :=
  [("anomaly", UVal.udict [("iqrMultiplier", Prim.pnum 4)])]

/-- Counterexample for C10 as stated: after merging a user configuration
overriding only `anomaly`, the returned configuration's `spike` entry is
the very same pre-existing dictionary object as `DEFAULT_CONFIG`'s (the
shared address 5 predates the call) — not a newly built dictionary. -/
theorem c10_counterexample :
    dictGet (((merge_config defaultHeap defaultConfigAddr userC10).2).getD
        (merge_config defaultHeap defaultConfigAddr userC10).1 []) "spike" =
      some (DVal.ref 5) ∧
      dictGet defaultTopDict "spike" = some (DVal.ref 5) ∧
      (5 : ℕ) < defaultHeap.length := by decide
